import Mathlib

/-!
# Verification of the Finance-Dashboard parsing/aggregation core

Shallow embedding of the parsing-and-normalization pipeline and the
aggregation engine of `budget.py` and `dashboard.py`.

Conventions of the embedding:
* Python strings are modelled as `String` at the interfaces and as
  `List Char` internally (`String.data`).
* The stdlib `float()` text-to-number conversion is modelled in full
  by `pyFloat`: its result `PyFloatVal` distinguishes finite decimal
  literals (with PEP 515 underscore grouping) from the `inf`/
  `infinity`/`nan` spellings, which denote non-finite IEEE values.
  The transaction data model stores amounts as exact rationals `ℚ`,
  so the pipeline's `parse_amount` is the restriction of the faithful
  normalizer `parse_amount_full` to rational-representable (finite)
  results; rows whose amount text denotes an infinity or NaN are
  accepted by the program with a non-finite amount and lie outside
  the `ℚ`-valued transaction model.
* Python exceptions are modelled by `Except PError`; the distinct
  `ValueError` messages raised by the source map to the distinct
  constructors of `PError`.
* `str.strip` / `str.lower` are modelled on the ASCII whitespace and
  letter ranges (`pyStrip`, `asciiLower`).
-/

/-- ASCII whitespace characters stripped by `str.strip()`. -/
def isPySpace (c : Char) : Bool :=
  c = ' ' ∨ c = '\t' ∨ c = '\n' ∨ c = '\r' ∨ c = '\x0B' ∨ c = '\x0C'

/-- `str.strip()`: remove whitespace from both ends. -/
def pyStrip (cs : List Char) : List Char :=
  ((cs.dropWhile isPySpace).reverse.dropWhile isPySpace).reverse

/-- `str.lower()` restricted to ASCII letters. -/
def asciiLower (c : Char) : Char :=
  if 'A' ≤ c ∧ c ≤ 'Z' then Char.ofNat (c.toNat + 32) else c

/-- `(text or "")` applied to an optional string, as character list:
`None` and the empty string both yield `[]`. -/
def optData (text : Option String) : List Char :=
  (text.getD "").data

/-- Numeric value of a digit string (most significant first), as
accumulated by repeated `*10 +` steps. -/
def digitsToNat (cs : List Char) : Nat :=
  cs.foldl (fun n c => n * 10 + (c.toNat - 48)) 0

/-- Validation failures of the parsing pipeline.  Each constructor
corresponds to one family of `ValueError` messages raised by the
source (`"amount ist leer"`, `"could not convert string to float"`,
`"kind muss income oder expense sein"`, `"Unbekanntes Datumsformat"`,
`"CSV hat keine Kopfzeile"`, `"Spalte fehlt: <col>"`,
`"Spalten fehlen: <cols>"`, `"Fehler in Zeile <n>: <cause>"`). -/
inductive PError where
  | emptyValue (field : String)
  | malformedNumber (text : String)
  | invalidKind
  | unknownDateFormat (text : String)
  | missingHeader
  | missingColumn (col : String)
  | missingColumns (cols : List String)
  | rowFailure (line : Nat) (cause : PError)
deriving DecidableEq

deriving instance DecidableEq for Except

/-- Is an `Except` value a success? -/
def exceptIsOk {ε α : Type} (x : Except ε α) : Bool :=
  match x with
  | .ok _ => true
  | .error _ => false

/-- The syntactic content of a successfully parsed finite float
literal: sign, integer digits, fractional digits with their count,
and decimal exponent.  Kept discrete so that parsing is decidable by
evaluation; the denoted rational is `FloatLit.toRat`. -/
structure FloatLit where
  neg : Bool
  intPart : Nat
  fracPart : Nat
  fracLen : Nat
  exp : ℤ
deriving DecidableEq

/-- The rational number denoted by a float literal. -/
def FloatLit.toRat (f : FloatLit) : ℚ :=
  (if f.neg then -1 else 1) *
    ((f.intPart : ℚ) + (f.fracPart : ℚ) / (10 : ℚ) ^ f.fracLen) * (10 : ℚ) ^ f.exp

/-- The value class of a successful `float()` conversion: a finite
decimal literal, a signed infinity (from the `inf`/`infinity`
spellings), or a NaN (from the `nan` spelling; the sign of a NaN is
not observable through equality, so it is not recorded). -/
inductive PyFloatVal where
  | finite (f : FloatLit)
  | infinite (neg : Bool)
  | nan
deriving DecidableEq

/-- Continuation of a PEP 515 digit run, `(["_"] digit)*`: collects
further digits (dropping the grouping underscores, each of which must
sit between two digits) and returns the unconsumed rest. -/
def digitpartRest : List Char → (List Char × List Char)
  | '_' :: c :: rest =>
    if c.isDigit then
      let (ds, rem) := digitpartRest rest
      (c :: ds, rem)
    else ([], '_' :: c :: rest)
  | c :: rest =>
    if c.isDigit then
      let (ds, rem) := digitpartRest rest
      (c :: ds, rem)
    else ([], c :: rest)
  | [] => ([], [])

/-- A PEP 515 `digitpart`, `digit (["_"] digit)*`, as consumed by
`float()`: the digits with underscores removed and the unconsumed
rest, or `none` when the input does not start with a digit. -/
def digitpart (cs : List Char) : Option (List Char × List Char) :=
  match cs with
  | c :: rest =>
    if c.isDigit then
      let (ds, rem) := digitpartRest rest
      some (c :: ds, rem)
    else none
  | [] => none

/-- Exponent suffix of a float literal: empty, or
`(e|E)(+|-)? digitpart`; returns the exponent value. -/
def pyFloatExp (cs : List Char) : Option ℤ :=
  match cs with
  | [] => some 0
  | e :: rest =>
    if e = 'e' ∨ e = 'E' then
      let (eneg, rest') : Bool × List Char :=
        match rest with
        | '+' :: r => (false, r)
        | '-' :: r => (true, r)
        | _ => (false, rest)
      match digitpart rest' with
      | some (ds, rem) =>
        if rem = [] then
          some (if eneg then -(digitsToNat ds : ℤ) else (digitsToNat ds : ℤ))
        else none
      | none => none
    else none

/-- The finite-literal grammar of `float()` after the sign:
`(digitpart [. digitpart?] | . digitpart) [(e|E) [+-]? digitpart]`,
with PEP 515 underscore grouping inside every digit run. -/
def pyFloatLit (neg : Bool) (cs : List Char) : Option FloatLit :=
  match digitpart cs with
  | some (ip, rest) =>
    match rest with
    | '.' :: rest2 =>
      match digitpart rest2 with
      | some (fp, rest3) =>
        (pyFloatExp rest3).map
          (fun ex => ⟨neg, digitsToNat ip, digitsToNat fp, fp.length, ex⟩)
      | none =>
        (pyFloatExp rest2).map (fun ex => ⟨neg, digitsToNat ip, 0, 0, ex⟩)
    | _ => (pyFloatExp rest).map (fun ex => ⟨neg, digitsToNat ip, 0, 0, ex⟩)
  | none =>
    match cs with
    | '.' :: rest =>
      match digitpart rest with
      | some (fp, rest2) =>
        (pyFloatExp rest2).map
          (fun ex => ⟨neg, 0, digitsToNat fp, fp.length, ex⟩)
      | none => none
    | _ => none

/-- CPython `float()` on a (whitespace-free) character list: an
optional sign, then either a case-insensitive `inf`/`infinity`/`nan`
keyword or a finite decimal literal with optional underscore
grouping. -/
def pyFloat (cs0 : List Char) : Option PyFloatVal :=
  let (neg, cs) : Bool × List Char :=
    match cs0 with
    | '+' :: r => (false, r)
    | '-' :: r => (true, r)
    | _ => (false, cs0)
  let low := cs.map asciiLower
  if low = "inf".data ∨ low = "infinity".data then some (.infinite neg)
  else if low = "nan".data then some .nan
  else (pyFloatLit neg cs).map .finite

/-- The restriction of `pyFloat` to rational-representable (finite)
results, used to build the `ℚ`-valued transaction model. -/
def pyFloatFinite (cs : List Char) : Option FloatLit :=
  match pyFloat cs with
  | some (.finite f) => some f
  | _ => none

/-- The character cleaning done by `parse_amount` before calling
`float`: `text.replace("'", "").replace(" ", "").replace(",", ".")`. -/
def cleanAmount (cs : List Char) : List Char :=
  ((cs.filter (fun c => !(c = '\''))).filter (fun c => !(c = ' '))).map
    (fun c => if c = ',' then '.' else c)

/-- `budget.parse_amount`, faithfully: strip, reject empty, remove
apostrophes and spaces, comma to dot, then `float()` — whose result
may be a negative or non-finite value. -/
def parse_amount_full (text : Option String) : Except PError PyFloatVal :=
  let t := pyStrip (optData text)
  if t = [] then .error (.emptyValue "amount")
  else
    match pyFloat (cleanAmount t) with
    | some v => .ok v
    | none => .error (.malformedNumber (String.mk (cleanAmount t)))

/-- `budget.parse_amount` restricted to the `ℚ`-valued amount domain
of the transaction model: as `parse_amount_full`, but only finite
results are representable (see the header conventions). -/
def parse_amount (text : Option String) : Except PError ℚ :=
  let t := pyStrip (optData text)
  if t = [] then .error (.emptyValue "amount")
  else
    match pyFloatFinite (cleanAmount t) with
    | some f => .ok f.toRat
    | none => .error (.malformedNumber (String.mk (cleanAmount t)))

/-- A calendar date (`datetime.date`): year, month, day. -/
structure Date where
  year : Nat
  month : Nat
  day : Nat
deriving DecidableEq

/-- Gregorian leap-year rule used by `datetime`. -/
def is_leap (y : Nat) : Bool :=
  y % 4 = 0 ∧ (¬y % 100 = 0 ∨ y % 400 = 0)

/-- Length of a month as used by `datetime`. -/
def days_in_month (y m : Nat) : Nat :=
  if m = 2 then (if is_leap y then 29 else 28)
  else if m = 4 ∨ m = 6 ∨ m = 9 ∨ m = 11 then 30
  else 31

/-- The `datetime.date(y, m, d)` constructor: validates the range
checks `MINYEAR <= y <= MAXYEAR`, `1 <= m <= 12`,
`1 <= d <= days_in_month`, raising (here: `none`) otherwise. -/
def mk_date (y m d : Nat) : Option Date :=
  if 1 ≤ y ∧ y ≤ 9999 ∧ 1 ≤ m ∧ m ≤ 12 ∧ 1 ≤ d ∧ d ≤ days_in_month y m then
    some ⟨y, m, d⟩
  else none

/-- Split a character list at every occurrence of `sep` (the field
structure induced by a separator in a `strptime` format string). -/
def splitOnChar (sep : Char) : List Char → List (List Char)
  | [] => [[]]
  | c :: rest =>
    if c = sep then [] :: splitOnChar sep rest
    else
      match splitOnChar sep rest with
      | [] => [[c]]
      | g :: gs => (c :: g) :: gs

/-- The `strptime` `%Y` field: exactly four digits. -/
def parse_year4 (cs : List Char) : Option Nat :=
  if cs.length = 4 ∧ cs.all Char.isDigit then some (digitsToNat cs) else none

/-- A `strptime` `%m`/`%d` field: one or two digits whose value lies
in `[lo, hi]`. -/
def parse_field2 (lo hi : Nat) (cs : List Char) : Option Nat :=
  if (cs.length = 1 ∨ cs.length = 2) ∧ cs.all Char.isDigit ∧
      lo ≤ digitsToNat cs ∧ digitsToNat cs ≤ hi then
    some (digitsToNat cs)
  else none

/-- `datetime.strptime(v, "%Y<sep>%m<sep>%d").date()`. -/
def tryFormatYMD (sep : Char) (v : List Char) : Option Date :=
  match splitOnChar sep v with
  | [ys, ms, ds] =>
    match parse_year4 ys with
    | none => none
    | some y =>
      match parse_field2 1 12 ms with
      | none => none
      | some m =>
        match parse_field2 1 31 ds with
        | none => none
        | some d => mk_date y m d
  | _ => none

/-- `datetime.strptime(v, "%d<sep>%m<sep>%Y").date()`. -/
def tryFormatDMY (sep : Char) (v : List Char) : Option Date :=
  match splitOnChar sep v with
  | [ds, ms, ys] =>
    match parse_field2 1 31 ds with
    | none => none
    | some d =>
      match parse_field2 1 12 ms with
      | none => none
      | some m =>
        match parse_year4 ys with
        | none => none
        | some y => mk_date y m d
  | _ => none

/-- Consume exactly two digits whose value is at most `hi`, returning
the rest of the input. -/
def two_digits_le (hi : Nat) : List Char → Option (List Char)
  | a :: b :: rest =>
    if a.isDigit ∧ b.isDigit ∧ digitsToNat [a, b] ≤ hi then some rest else none
  | _ => none

/-- A fractional-seconds digit run: one to six digits. -/
def frac_ok (cs : List Char) : Bool :=
  ¬cs = [] ∧ cs.length ≤ 6 ∧ cs.all Char.isDigit

/-- A UTC-offset suffix: empty, `Z`, or `±HH:MM`. -/
def iso_offset_ok : List Char → Bool
  | [] => true
  | ['Z'] => true
  | c :: rest =>
    (c = '+' ∨ c = '-') &&
      (match two_digits_le 23 rest with
       | some (':' :: r) =>
         (match two_digits_le 59 r with
          | some [] => true
          | _ => false)
       | _ => false)

/-- An ISO-8601 time-of-day: `HH[:MM[:SS[.ffffff]]]` with an optional
offset suffix. -/
def iso_time_ok (t : List Char) : Bool :=
  match two_digits_le 23 t with
  | none => false
  | some r1 =>
    match r1 with
    | ':' :: r =>
      match two_digits_le 59 r with
      | none => false
      | some r2 =>
        match r2 with
        | ':' :: r' =>
          match two_digits_le 59 r' with
          | none => false
          | some r3 =>
            match r3 with
            | '.' :: f =>
              frac_ok (f.takeWhile Char.isDigit) &&
                iso_offset_ok (f.dropWhile Char.isDigit)
            | _ => iso_offset_ok r3
        | _ => iso_offset_ok r2
    | _ => iso_offset_ok r1

/-- Whatever may follow the date component of an ISO-8601 timestamp:
nothing, or a `T`/space separator and a valid time-of-day. -/
def iso_tail_ok (rest : List Char) : Bool :=
  match rest with
  | [] => true
  | c :: t => (c = 'T' ∨ c = ' ') && iso_time_ok t

/-- `datetime.fromisoformat(v).date()`, modelled on its common forms:
an extended (`YYYY-MM-DD`) or basic (`YYYYMMDD`) date, optionally
followed by a separator and a time-of-day with optional fractional
seconds and UTC offset.  (Week-date and basic-time forms of the
CPython parser are not modelled.) -/
def fromisoformat_date (v : List Char) : Option Date :=
  match v with
  | a :: b :: c :: d :: rest =>
    if [a, b, c, d].all Char.isDigit then
      let y := digitsToNat [a, b, c, d]
      match rest with
      | '-' :: m1 :: m2 :: '-' :: d1 :: d2 :: rest2 =>
        if [m1, m2].all Char.isDigit ∧ [d1, d2].all Char.isDigit ∧
            iso_tail_ok rest2 then
          mk_date y (digitsToNat [m1, m2]) (digitsToNat [d1, d2])
        else none
      | m1 :: m2 :: d1 :: d2 :: rest2 =>
        if [m1, m2].all Char.isDigit ∧ [d1, d2].all Char.isDigit ∧
            iso_tail_ok rest2 then
          mk_date y (digitsToNat [m1, m2]) (digitsToNat [d1, d2])
        else none
      | _ => none
    else none
  | _ => none

/-- The ordered `strptime` attempts of `budget.parse_date`:
`%Y-%m-%d`, `%d.%m.%Y`, `%d/%m/%Y`, `%d-%m-%Y`, first success wins. -/
def strptime_formats (v : List Char) : Option Date :=
  match tryFormatYMD '-' v with
  | some d => some d
  | none =>
    match tryFormatDMY '.' v with
    | some d => some d
    | none =>
      match tryFormatDMY '/' v with
      | some d => some d
      | none => tryFormatDMY '-' v

/-- `budget.parse_date`: strip, reject empty, try the four formats in
order, fall back to an ISO-8601 timestamp parse, else fail. -/
def parse_date (text : Option String) : Except PError Date :=
  let value := pyStrip (optData text)
  if value = [] then .error (.emptyValue "date")
  else
    match strptime_formats value with
    | some d => .ok d
    | none =>
      match fromisoformat_date value with
      | some d => .ok d
      | none => .error (.unknownDateFormat (String.mk value))

/-- `budget.normalize_kind`: trim, lower-case, map the German/English
synonyms to `"income"`/`"expense"`, otherwise fail. -/
def normalize_kind (text : Option String) : Except PError String :=
  let value := (pyStrip (optData text)).map asciiLower
  if value = "income".data ∨ value = "ein".data ∨ value = "einnahme".data ∨
      value = "einnahmen".data then .ok "income"
  else if value = "expense".data ∨ value = "aus".data ∨ value = "ausgabe".data ∨
      value = "ausgaben".data then .ok "expense"
  else .error .invalidKind

/-- `budget.normalize_group`: trim, lower-case, map the synonyms to
`"fix"`/`"want"`/`"save"`, with silent fallback `"other"`. -/
def normalize_group (text : Option String) : String :=
  let value := (pyStrip (optData text)).map asciiLower
  if value = "fix".data ∨ value = "fixkosten".data then "fix"
  else if value = "want".data ∨ value = "wunsch".data ∨ value = "wünsche".data ∨
      value = "wuensche".data then "want"
  else if value = "save".data ∨ value = "sparen".data then "save"
  else "other"

/-- The `CATEGORY_TO_GROUP` configuration table of `budget.py`. -/
def CATEGORY_TO_GROUP : List (String × String) :=
  [("Miete", "fix"), ("Krankenkasse", "fix"), ("ÖV", "fix"), ("Handy", "fix"),
   ("Internet", "fix"), ("Strom", "fix"), ("Abo", "fix"),
   ("Restaurant", "want"), ("Kino", "want"), ("Games", "want"),
   ("Kleidung", "want"), ("Hobby", "want"),
   ("Sparen", "save"), ("Investieren", "save")]

/-- `budget.group_for_category`: a non-empty trimmed override is
normalized; otherwise the category table is consulted (exact match),
defaulting to `"other"`. -/
def group_for_category (category : String) (group_text : Option String) : String :=
  let g := pyStrip (optData group_text)
  if g = [] then
    (((CATEGORY_TO_GROUP.find? (fun p => p.1 == category)).map (fun p => p.2)).getD "other")
  else normalize_group (some (String.mk g))

/-- A validated transaction, as built by the row loop of
`load_transactions` / `parse_transactions_from_upload`. -/
structure Txn where
  date : String
  date_obj : Date
  kind : String
  amount : ℚ
  category : String
  group : String
  note : String
deriving DecidableEq

/-- A CSV data row as produced by `csv.DictReader`: an association
from column names to cell text; `rowGet` is `row.get(key)`, `none`
for an absent column. -/
def Row : Type := List (String × String)

/-- `row.get(key)` on a `DictReader` row. -/
def rowGet (r : Row) (key : String) : Option String :=
  ((List.find? (fun p => p.1 == key) r)).map (fun p => p.2)

/-- A parsed tabular source: the header (`None` when the file has no
header row) and the data rows. -/
structure CSVTable where
  header? : Option (List String)
  rows : List Row

/-- The body of the row loop of `budget.load_transactions`: normalize
kind, amount, category (rejecting empty), resolve the group, parse
the date, and collect the trimmed raw fields. -/
def row_to_txn_budget (row : Row) : Except PError Txn := do
  let kind ← normalize_kind (rowGet row "kind")
  let amount ← parse_amount (rowGet row "amount")
  let category := String.mk (pyStrip (optData (rowGet row "category")))
  if category = "" then throw (.emptyValue "category")
  else
    let group := group_for_category category (rowGet row "group")
    let date_obj ← parse_date (rowGet row "date")
    pure
      { date := String.mk (pyStrip (optData (rowGet row "date")))
        date_obj := date_obj
        kind := kind
        amount := amount
        category := category
        group := group
        note := String.mk (pyStrip (optData (rowGet row "note"))) }

/-- The body of the row loop of
`dashboard.parse_transactions_from_upload` (same normalizers; the
date is parsed before the group is resolved). -/
def row_to_txn_dash (row : Row) : Except PError Txn := do
  let kind ← normalize_kind (rowGet row "kind")
  let amount ← parse_amount (rowGet row "amount")
  let category := String.mk (pyStrip (optData (rowGet row "category")))
  if category = "" then throw (.emptyValue "category")
  else
    let date_obj ← parse_date (rowGet row "date")
    let group := group_for_category category (rowGet row "group")
    pure
      { date := String.mk (pyStrip (optData (rowGet row "date")))
        date_obj := date_obj
        kind := kind
        amount := amount
        category := category
        group := group
        note := String.mk (pyStrip (optData (rowGet row "note"))) }

/-- The fail-fast row loop of `load_transactions`: `line` is the
1-based file line of the next data row (the header is line 1, so the
loop starts at 2); the first failing row aborts the whole parse,
wrapped as a line-numbered error. -/
def loadRows (rowFn : Row → Except PError Txn) : List Row → Nat → Except PError (List Txn)
  | [], _ => .ok []
  | r :: rest, line =>
    match rowFn r with
    | .error e => .error (.rowFailure line e)
    | .ok tx =>
      match loadRows rowFn rest (line + 1) with
      | .error e => .error e
      | .ok txs => .ok (tx :: txs)

/-- The required columns, in the order `budget.load_transactions`
checks them. -/
def required_columns : List String := ["date", "kind", "amount", "category"]

/-- `budget.load_transactions` (from the `DictReader` stage): check
the header, check each required column in order (raising on the first
missing one), then run the fail-fast row loop. -/
def load_transactions (t : CSVTable) : Except PError (List Txn) :=
  match t.header? with
  | none => .error .missingHeader
  | some fieldnames =>
    match required_columns.find? (fun c => !fieldnames.contains c) with
    | some col => .error (.missingColumn col)
    | none => loadRows row_to_txn_budget t.rows 2

/-- The result record of `parse_transactions_from_upload`. -/
structure ParsedData where
  transactions : List Txn
  warnings : List String
deriving DecidableEq

/-- The required columns in alphabetical order: the order in which
`parse_transactions_from_upload` reports missing columns
(`", ".join(sorted(missing))`). -/
def required_columns_sorted : List String := ["amount", "category", "date", "kind"]

/-- `dashboard.parse_transactions_from_upload` (from the `DictReader`
stage; the transport/decoding layers are outside the core): check the
header, report all missing required columns at once, run the
fail-fast row loop, and warn when the file has no data rows. -/
def parse_transactions_from_upload (t : CSVTable) : Except PError ParsedData :=
  match t.header? with
  | none => .error .missingHeader
  | some fieldnames =>
    let missing := required_columns_sorted.filter (fun c => !fieldnames.contains c)
    if missing = [] then
      match loadRows row_to_txn_dash t.rows 2 with
      | .error e => .error e
      | .ok txs =>
        .ok ⟨txs, if txs.length = 0 then ["CSV enthält keine Datenzeilen (nur Header?)"] else []⟩
    else .error (.missingColumns missing)

/-- The decimal digit character for `k < 10` (an out-of-range `k`
yields a non-digit placeholder). -/
def digit_char (k : Nat) : Char :=
  match k with
  | 0 => '0' | 1 => '1' | 2 => '2' | 3 => '3' | 4 => '4'
  | 5 => '5' | 6 => '6' | 7 => '7' | 8 => '8' | 9 => '9'
  | _ => 'X'

/-- Two-digit zero-padded rendering (`%02d`, and `%m`/`%d`/`%H` of
`strftime`). -/
def pad2_chars (n : Nat) : List Char :=
  [digit_char (n / 10 % 10), digit_char (n % 10)]

/-- Four-digit zero-padded rendering (`%Y` of `strftime`). -/
def pad4_chars (n : Nat) : List Char :=
  [digit_char (n / 1000 % 10), digit_char (n / 100 % 10),
   digit_char (n / 10 % 10), digit_char (n % 10)]

/-- `dashboard.month_key`: `d.strftime("%Y-%m")`. -/
def month_key (d : Date) : String :=
  String.mk (pad4_chars d.year ++ '-' :: pad2_chars d.month)

/-- Rendering of a date in the ISO `YYYY-MM-DD` format. -/
def render_iso (y m d : Nat) : String :=
  String.mk (pad4_chars y ++ '-' :: (pad2_chars m ++ '-' :: pad2_chars d))

/-- Rendering of a date in the `DD.MM.YYYY` format. -/
def render_dot (y m d : Nat) : String :=
  String.mk (pad2_chars d ++ '.' :: (pad2_chars m ++ '.' :: pad4_chars y))

/-- Rendering of a date in the `DD/MM/YYYY` format. -/
def render_slash (y m d : Nat) : String :=
  String.mk (pad2_chars d ++ '/' :: (pad2_chars m ++ '/' :: pad4_chars y))

/-- Rendering of a date in the `DD-MM-YYYY` format. -/
def render_dash (y m d : Nat) : String :=
  String.mk (pad2_chars d ++ '-' :: (pad2_chars m ++ '-' :: pad4_chars y))

/-- A well-formed calendar date, as accepted by `datetime.date`. -/
def ValidDate (y m d : Nat) : Prop :=
  1 ≤ y ∧ y ≤ 9999 ∧ 1 ≤ m ∧ m ≤ 12 ∧ 1 ≤ d ∧ d ≤ days_in_month y m

instance (y m d : Nat) : Decidable (ValidDate y m d) := by
  unfold ValidDate; infer_instance

/-- `budget.compute_totals`: one pass accumulating the income total
and the expense total (any non-income transaction counts as expense),
returning `(income, expense, net)`. -/
def compute_totals (transactions : List Txn) : ℚ × ℚ × ℚ :=
  let p := transactions.foldl
    (fun (acc : ℚ × ℚ) tx =>
      if tx.kind = "income" then (acc.1 + tx.amount, acc.2)
      else (acc.1, acc.2 + tx.amount))
    (0, 0)
  (p.1, p.2, p.1 - p.2)

/-- `budget.sum_expenses_by_category`: a `defaultdict(float)` keyed by
category, accumulated over expense transactions; modelled as the
function from keys to values (missing key ↦ 0). -/
def sum_expenses_by_category (transactions : List Txn) : String → ℚ :=
  transactions.foldl
    (fun sums tx =>
      if tx.kind = "expense" then
        Function.update sums tx.category (sums tx.category + tx.amount)
      else sums)
    (fun _ => 0)

/-- `budget.sum_expenses_by_group`: as above, keyed by group. -/
def sum_expenses_by_group (transactions : List Txn) : String → ℚ :=
  transactions.foldl
    (fun sums tx =>
      if tx.kind = "expense" then
        Function.update sums tx.group (sums tx.group + tx.amount)
      else sums)
    (fun _ => 0)

/-- The six dictionaries built by the loop of
`dashboard.compute_aggregates`, each modelled as the function from
keys to values (`defaultdict(float)`: missing key ↦ 0). -/
structure AggAcc where
  monthly_income : String → ℚ
  monthly_expense : String → ℚ
  monthly_cat : String → String → ℚ
  monthly_group : String → String → ℚ
  totals_by_category : String → ℚ
  totals_by_group : String → ℚ

/-- One iteration of the `compute_aggregates` loop: an income
transaction only feeds the monthly income total (`continue`); any
other transaction feeds the monthly expense total and the four
expense breakdowns. -/
def agg_step (acc : AggAcc) (tx : Txn) : AggAcc :=
  let m := month_key tx.date_obj
  if tx.kind = "income" then
    { acc with
      monthly_income := Function.update acc.monthly_income m (acc.monthly_income m + tx.amount) }
  else
    { monthly_income := acc.monthly_income
      monthly_expense := Function.update acc.monthly_expense m (acc.monthly_expense m + tx.amount)
      monthly_cat := Function.update acc.monthly_cat m
        (Function.update (acc.monthly_cat m) tx.category (acc.monthly_cat m tx.category + tx.amount))
      monthly_group := Function.update acc.monthly_group m
        (Function.update (acc.monthly_group m) tx.group (acc.monthly_group m tx.group + tx.amount))
      totals_by_category := Function.update acc.totals_by_category tx.category
        (acc.totals_by_category tx.category + tx.amount)
      totals_by_group := Function.update acc.totals_by_group tx.group
        (acc.totals_by_group tx.group + tx.amount) }

/-- The empty accumulator (every `defaultdict(float)` starts empty). -/
def agg_init : AggAcc :=
  ⟨fun _ => 0, fun _ => 0, fun _ _ => 0, fun _ _ => 0, fun _ => 0, fun _ => 0⟩

/-- The value of `dashboard.compute_aggregates`: the sorted list of
months with any activity, plus the six sum tables. -/
structure AggView where
  months : List String
  monthly_income : String → ℚ
  monthly_expense : String → ℚ
  monthly_cat : String → String → ℚ
  monthly_group : String → String → ℚ
  totals_by_category : String → ℚ
  totals_by_group : String → ℚ

/-- `dashboard.compute_aggregates`.  The reported month set
`sorted(set(monthly_income) | set(monthly_expense))` equals the
sorted set of month keys of all transactions, since every transaction
is bucketed into exactly one of the two. -/
def compute_aggregates (transactions : List Txn) : AggView :=
  let acc := transactions.foldl agg_step agg_init
  { months :=
      List.insertionSort (· ≤ ·)
        ((transactions.map (fun tx => month_key tx.date_obj)).dedup)
    monthly_income := acc.monthly_income
    monthly_expense := acc.monthly_expense
    monthly_cat := acc.monthly_cat
    monthly_group := acc.monthly_group
    totals_by_category := acc.totals_by_category
    totals_by_group := acc.totals_by_group }

/-- The key set of the `sum_expenses_by_category` dictionary: the
categories of expense transactions, first occurrence first. -/
def expense_categories (transactions : List Txn) : List String :=
  ((transactions.filter (fun tx => tx.kind == "expense")).map (fun tx => tx.category)).dedup

/-- The key set of the `sum_expenses_by_group` dictionary. -/
def expense_groups (transactions : List Txn) : List String :=
  ((transactions.filter (fun tx => tx.kind == "expense")).map (fun tx => tx.group)).dedup

/-- The key set of the `totals_by_category` dictionary of
`compute_aggregates` (categories of non-income transactions). -/
def breakdown_categories (transactions : List Txn) : List String :=
  ((transactions.filter (fun tx => !(tx.kind == "income"))).map (fun tx => tx.category)).dedup

/-- The key set of the `totals_by_group` dictionary of
`compute_aggregates`. -/
def breakdown_groups (transactions : List Txn) : List String :=
  ((transactions.filter (fun tx => !(tx.kind == "income"))).map (fun tx => tx.group)).dedup

/-- The key set of the `monthly_expense` dictionary of
`compute_aggregates`. -/
def expense_months (transactions : List Txn) : List String :=
  ((transactions.filter (fun tx => !(tx.kind == "income"))).map
    (fun tx => month_key tx.date_obj)).dedup

/-- `sum(monthly_expense.values())`: the dashboard's total expense as
computed in `update_figures`. -/
def total_expense_dash (transactions : List Txn) : ℚ :=
  ((expense_months transactions).map ((compute_aggregates transactions).monthly_expense)).sum

/-- The equivalent monthly compounding rate
`(1 + annual_rate) ** (1/12) - 1` of
`dashboard.future_value_monthly_contrib`; float arithmetic is
modelled by exact real arithmetic (`**` is `Real.rpow`). -/
noncomputable def monthly_rate (annual_real_rate : ℝ) : ℝ :=
  (1 + annual_real_rate) ^ ((1 : ℝ) / 12) - 1

/-- `dashboard.future_value_monthly_contrib`: 0 when `years <= 0` or
`pmt <= 0`; linearly `pmt * n` when the monthly rate is within the
`1e-12` tolerance of zero; otherwise the ordinary-annuity future
value `pmt * (((1 + r_m) ** n - 1) / r_m)` for `n = years * 12`. -/
noncomputable def future_value_monthly_contrib
    (pmt : ℝ) (years : ℤ) (annual_real_rate : ℝ) : ℝ :=
  if years ≤ 0 ∨ pmt ≤ 0 then 0
  else
    let r_m := monthly_rate annual_real_rate
    let n : ℤ := years * 12
    if |r_m| < 1e-12 then pmt * (n : ℝ)
    else pmt * (((1 + r_m) ^ n.toNat - 1) / r_m)

/-- Example transactions for concrete instantiations. -/
def exTx1 : Txn :=
  ⟨"2026-01-11", ⟨2026, 1, 11⟩, "income", 500, "Lohn", "other", ""⟩

/-- A second example transaction. -/
def exTx2 : Txn :=
  ⟨"2026-01-12", ⟨2026, 1, 12⟩, "expense", 120, "Miete", "fix", ""⟩

/-! ## Helper lemmas -/

/-- Evaluation helper: `parse_amount` on a string whose stripped form
is non-empty and whose cleaned form parses as a float literal. -/
theorem parse_amount_eq_ok (s : String) (f : FloatLit)
    (h1 : ¬pyStrip s.data = [])
    (h2 : pyFloatFinite (cleanAmount (pyStrip s.data)) = some f) :
    parse_amount (some s) = .ok f.toRat := by
  unfold parse_amount optData
  simp only [Option.getD]
  rw [if_neg h1, h2]

/-- Evaluation helper: `parse_amount` on a string whose cleaned form
does not parse as a float literal. -/
theorem parse_amount_eq_err (s : String)
    (h1 : ¬pyStrip s.data = [])
    (h2 : pyFloatFinite (cleanAmount (pyStrip s.data)) = none) :
    parse_amount (some s) =
      .error (.malformedNumber (String.mk (cleanAmount (pyStrip s.data)))) := by
  unfold parse_amount optData
  simp only [Option.getD]
  rw [if_neg h1, h2]

theorem monthly_rate_zero : monthly_rate 0 = 0 := by
  simp [monthly_rate]

theorem fv_of_nonpos (pmt : ℝ) (years : ℤ) (r : ℝ)
    (h : years ≤ 0 ∨ pmt ≤ 0) :
    future_value_monthly_contrib pmt years r = 0 := by
  unfold future_value_monthly_contrib
  rw [if_pos h]

theorem fv_of_small_rate (pmt : ℝ) (years : ℤ) (r : ℝ)
    (hy : 0 < years) (hp : 0 < pmt) (h : |monthly_rate r| < 1e-12) :
    future_value_monthly_contrib pmt years r = pmt * ((years * 12 : ℤ) : ℝ) := by
  unfold future_value_monthly_contrib
  rw [if_neg (by push_neg; exact ⟨by omega, by linarith⟩)]
  simp only [if_pos h]

theorem fv_of_large_rate (pmt : ℝ) (years : ℤ) (r : ℝ)
    (hy : 0 < years) (hp : 0 < pmt) (h : ¬|monthly_rate r| < 1e-12) :
    future_value_monthly_contrib pmt years r =
      pmt * (((1 + monthly_rate r) ^ (years * 12).toNat - 1) / monthly_rate r) := by
  unfold future_value_monthly_contrib
  rw [if_neg (by push_neg; exact ⟨by omega, by linarith⟩)]
  simp only [if_neg h]

/-! ## Characterizations of the aggregation folds -/

theorem compute_totals_foldl (l : List Txn) :
    ∀ acc : ℚ × ℚ,
      l.foldl
        (fun (acc : ℚ × ℚ) tx =>
          if tx.kind = "income" then (acc.1 + tx.amount, acc.2)
          else (acc.1, acc.2 + tx.amount)) acc =
      (acc.1 + ((l.filter (fun tx => tx.kind == "income")).map Txn.amount).sum,
       acc.2 + ((l.filter (fun tx => !(tx.kind == "income"))).map Txn.amount).sum) := by
  induction l with
  | nil => intro acc; simp
  | cons tx l ih =>
    intro acc
    rw [List.foldl_cons, ih, List.filter_cons, List.filter_cons]
    by_cases hk : tx.kind = "income"
    · simp only [hk, if_pos rfl, beq_self_eq_true, if_pos, Bool.not_true,
        Bool.false_eq_true, if_false, List.map_cons, List.sum_cons]
      simp
      ring
    · simp only [if_neg hk]
      have : (tx.kind == "income") = false := by
        simp [hk]
      simp [this]
      ring

/-- `compute_totals` computes the income sum, the non-income sum, and
their difference. -/
theorem compute_totals_spec (l : List Txn) :
    compute_totals l =
      (((l.filter (fun tx => tx.kind == "income")).map Txn.amount).sum,
       ((l.filter (fun tx => !(tx.kind == "income"))).map Txn.amount).sum,
       ((l.filter (fun tx => tx.kind == "income")).map Txn.amount).sum -
         ((l.filter (fun tx => !(tx.kind == "income"))).map Txn.amount).sum) := by
  unfold compute_totals
  rw [compute_totals_foldl l (0, 0)]
  simp

theorem sum_expenses_by_category_foldl (l : List Txn) :
    ∀ (init : String → ℚ) (k : String),
      (l.foldl
        (fun sums tx =>
          if tx.kind = "expense" then
            Function.update sums tx.category (sums tx.category + tx.amount)
          else sums) init) k =
      init k +
        ((l.filter (fun tx => (tx.kind == "expense") && (tx.category == k))).map
          Txn.amount).sum := by
  induction l with
  | nil => intro init k; simp
  | cons tx l ih =>
    intro init k
    rw [List.foldl_cons, ih, List.filter_cons]
    by_cases hk : tx.kind = "expense"
    · by_cases hc : tx.category = k
      · simp [hk, hc, Function.update_apply]
        ring
      · have hc' : ¬(k = tx.category) := fun h => hc h.symm
        simp [hk, hc, hc', Function.update_apply]
    · simp [hk]

/-- Pointwise value of the category expense dictionary. -/
theorem sum_expenses_by_category_spec (l : List Txn) (k : String) :
    sum_expenses_by_category l k =
      ((l.filter (fun tx => (tx.kind == "expense") && (tx.category == k))).map
        Txn.amount).sum := by
  unfold sum_expenses_by_category
  rw [sum_expenses_by_category_foldl l (fun _ => 0) k]
  simp

theorem sum_expenses_by_group_foldl (l : List Txn) :
    ∀ (init : String → ℚ) (k : String),
      (l.foldl
        (fun sums tx =>
          if tx.kind = "expense" then
            Function.update sums tx.group (sums tx.group + tx.amount)
          else sums) init) k =
      init k +
        ((l.filter (fun tx => (tx.kind == "expense") && (tx.group == k))).map
          Txn.amount).sum := by
  induction l with
  | nil => intro init k; simp
  | cons tx l ih =>
    intro init k
    rw [List.foldl_cons, ih, List.filter_cons]
    by_cases hk : tx.kind = "expense"
    · by_cases hc : tx.group = k
      · simp [hk, hc, Function.update_apply]
        ring
      · have hc' : ¬(k = tx.group) := fun h => hc h.symm
        simp [hk, hc, hc', Function.update_apply]
    · simp [hk]

/-- Pointwise value of the group expense dictionary. -/
theorem sum_expenses_by_group_spec (l : List Txn) (k : String) :
    sum_expenses_by_group l k =
      ((l.filter (fun tx => (tx.kind == "expense") && (tx.group == k))).map
        Txn.amount).sum := by
  unfold sum_expenses_by_group
  rw [sum_expenses_by_group_foldl l (fun _ => 0) k]
  simp

theorem agg_foldl_monthly_income (l : List Txn) :
    ∀ (acc : AggAcc) (m : String),
      (l.foldl agg_step acc).monthly_income m =
        acc.monthly_income m +
          ((l.filter (fun tx => (tx.kind == "income") && (month_key tx.date_obj == m))).map
            Txn.amount).sum := by
  induction l with
  | nil => intro acc m; simp
  | cons tx l ih =>
    intro acc m
    rw [List.foldl_cons, ih, List.filter_cons]
    by_cases hk : tx.kind = "income"
    · by_cases hm : month_key tx.date_obj = m
      · simp [agg_step, hk, hm, Function.update_apply]
        ring
      · have hm' : ¬(m = month_key tx.date_obj) := fun h => hm h.symm
        simp [agg_step, hk, hm, hm', Function.update_apply]
    · simp [agg_step, hk]

theorem agg_foldl_monthly_expense (l : List Txn) :
    ∀ (acc : AggAcc) (m : String),
      (l.foldl agg_step acc).monthly_expense m =
        acc.monthly_expense m +
          ((l.filter (fun tx => !(tx.kind == "income") && (month_key tx.date_obj == m))).map
            Txn.amount).sum := by
  induction l with
  | nil => intro acc m; simp
  | cons tx l ih =>
    intro acc m
    rw [List.foldl_cons, ih, List.filter_cons]
    by_cases hk : tx.kind = "income"
    · simp [agg_step, hk]
    · by_cases hm : month_key tx.date_obj = m
      · simp [agg_step, hk, hm, Function.update_apply]
        ring
      · have hm' : ¬(m = month_key tx.date_obj) := fun h => hm h.symm
        simp [agg_step, hk, hm, hm', Function.update_apply]

theorem agg_foldl_totals_by_category (l : List Txn) :
    ∀ (acc : AggAcc) (k : String),
      (l.foldl agg_step acc).totals_by_category k =
        acc.totals_by_category k +
          ((l.filter (fun tx => !(tx.kind == "income") && (tx.category == k))).map
            Txn.amount).sum := by
  induction l with
  | nil => intro acc k; simp
  | cons tx l ih =>
    intro acc k
    rw [List.foldl_cons, ih, List.filter_cons]
    by_cases hk : tx.kind = "income"
    · simp [agg_step, hk]
    · by_cases hc : tx.category = k
      · simp [agg_step, hk, hc, Function.update_apply]
        ring
      · have hc' : ¬(k = tx.category) := fun h => hc h.symm
        simp [agg_step, hk, hc, hc', Function.update_apply]

theorem agg_foldl_totals_by_group (l : List Txn) :
    ∀ (acc : AggAcc) (k : String),
      (l.foldl agg_step acc).totals_by_group k =
        acc.totals_by_group k +
          ((l.filter (fun tx => !(tx.kind == "income") && (tx.group == k))).map
            Txn.amount).sum := by
  induction l with
  | nil => intro acc k; simp
  | cons tx l ih =>
    intro acc k
    rw [List.foldl_cons, ih, List.filter_cons]
    by_cases hk : tx.kind = "income"
    · simp [agg_step, hk]
    · by_cases hc : tx.group = k
      · simp [agg_step, hk, hc, Function.update_apply]
        ring
      · have hc' : ¬(k = tx.group) := fun h => hc h.symm
        simp [agg_step, hk, hc, hc', Function.update_apply]

theorem agg_foldl_monthly_cat (l : List Txn) :
    ∀ (acc : AggAcc) (m c : String),
      (l.foldl agg_step acc).monthly_cat m c =
        acc.monthly_cat m c +
          ((l.filter (fun tx =>
            !(tx.kind == "income") && (month_key tx.date_obj == m) && (tx.category == c))).map
            Txn.amount).sum := by
  induction l with
  | nil => intro acc m c; simp
  | cons tx l ih =>
    intro acc m c
    rw [List.foldl_cons, ih, List.filter_cons]
    by_cases hk : tx.kind = "income"
    · simp [agg_step, hk]
    · by_cases hm : month_key tx.date_obj = m
      · by_cases hc : tx.category = c
        · simp [agg_step, hk, hm, hc, Function.update_apply, apply_ite (fun h : String → ℚ => h c)]
          ring
        · have hc' : ¬(c = tx.category) := fun h => hc h.symm
          simp [agg_step, hk, hm, hc, hc', Function.update_apply, apply_ite (fun h : String → ℚ => h c)]
      · have hm' : ¬(m = month_key tx.date_obj) := fun h => hm h.symm
        simp [agg_step, hk, hm, hm', Function.update_apply, apply_ite (fun h : String → ℚ => h c)]

theorem agg_foldl_monthly_group (l : List Txn) :
    ∀ (acc : AggAcc) (m g : String),
      (l.foldl agg_step acc).monthly_group m g =
        acc.monthly_group m g +
          ((l.filter (fun tx =>
            !(tx.kind == "income") && (month_key tx.date_obj == m) && (tx.group == g))).map
            Txn.amount).sum := by
  induction l with
  | nil => intro acc m g; simp
  | cons tx l ih =>
    intro acc m g
    rw [List.foldl_cons, ih, List.filter_cons]
    by_cases hk : tx.kind = "income"
    · simp [agg_step, hk]
    · by_cases hm : month_key tx.date_obj = m
      · by_cases hc : tx.group = g
        · simp [agg_step, hk, hm, hc, Function.update_apply, apply_ite (fun h : String → ℚ => h g)]
          ring
        · have hc' : ¬(g = tx.group) := fun h => hc h.symm
          simp [agg_step, hk, hm, hc, hc', Function.update_apply, apply_ite (fun h : String → ℚ => h g)]
      · have hm' : ¬(m = month_key tx.date_obj) := fun h => hm h.symm
        simp [agg_step, hk, hm, hm', Function.update_apply, apply_ite (fun h : String → ℚ => h g)]

/-- Reading off the month list of `compute_aggregates`. -/
theorem compute_aggregates_months (l : List Txn) :
    (compute_aggregates l).months =
      List.insertionSort (· ≤ ·) ((l.map (fun tx => month_key tx.date_obj)).dedup) := rfl

/-- Pointwise value of `monthly_income`. -/
theorem compute_aggregates_monthly_income (l : List Txn) (m : String) :
    (compute_aggregates l).monthly_income m =
      ((l.filter (fun tx => (tx.kind == "income") && (month_key tx.date_obj == m))).map
        Txn.amount).sum := by
  rw [show (compute_aggregates l).monthly_income =
      (l.foldl agg_step agg_init).monthly_income from rfl]
  rw [agg_foldl_monthly_income l agg_init m]
  simp [agg_init]

/-- Pointwise value of `monthly_expense`. -/
theorem compute_aggregates_monthly_expense (l : List Txn) (m : String) :
    (compute_aggregates l).monthly_expense m =
      ((l.filter (fun tx => !(tx.kind == "income") && (month_key tx.date_obj == m))).map
        Txn.amount).sum := by
  rw [show (compute_aggregates l).monthly_expense =
      (l.foldl agg_step agg_init).monthly_expense from rfl]
  rw [agg_foldl_monthly_expense l agg_init m]
  simp [agg_init]

/-- Pointwise value of `monthly_cat`. -/
theorem compute_aggregates_monthly_cat (l : List Txn) (m c : String) :
    (compute_aggregates l).monthly_cat m c =
      ((l.filter (fun tx =>
        !(tx.kind == "income") && (month_key tx.date_obj == m) && (tx.category == c))).map
        Txn.amount).sum := by
  rw [show (compute_aggregates l).monthly_cat =
      (l.foldl agg_step agg_init).monthly_cat from rfl]
  rw [agg_foldl_monthly_cat l agg_init m c]
  simp [agg_init]

/-- Pointwise value of `monthly_group`. -/
theorem compute_aggregates_monthly_group (l : List Txn) (m g : String) :
    (compute_aggregates l).monthly_group m g =
      ((l.filter (fun tx =>
        !(tx.kind == "income") && (month_key tx.date_obj == m) && (tx.group == g))).map
        Txn.amount).sum := by
  rw [show (compute_aggregates l).monthly_group =
      (l.foldl agg_step agg_init).monthly_group from rfl]
  rw [agg_foldl_monthly_group l agg_init m g]
  simp [agg_init]

/-- Pointwise value of `totals_by_category`. -/
theorem compute_aggregates_totals_by_category (l : List Txn) (c : String) :
    (compute_aggregates l).totals_by_category c =
      ((l.filter (fun tx => !(tx.kind == "income") && (tx.category == c))).map
        Txn.amount).sum := by
  rw [show (compute_aggregates l).totals_by_category =
      (l.foldl agg_step agg_init).totals_by_category from rfl]
  rw [agg_foldl_totals_by_category l agg_init c]
  simp [agg_init]

/-- Pointwise value of `totals_by_group`. -/
theorem compute_aggregates_totals_by_group (l : List Txn) (g : String) :
    (compute_aggregates l).totals_by_group g =
      ((l.filter (fun tx => !(tx.kind == "income") && (tx.group == g))).map
        Txn.amount).sum := by
  rw [show (compute_aggregates l).totals_by_group =
      (l.foldl agg_step agg_init).totals_by_group from rfl]
  rw [agg_foldl_totals_by_group l agg_init g]
  simp [agg_init]

/-! ## Summing a dictionary over its key set -/

theorem sum_map_ite_zero (c : String) (q : ℚ) :
    ∀ ks : List String, c ∉ ks →
      (ks.map (fun k => if k = c then q else 0)).sum = 0 := by
  intro ks
  induction ks with
  | nil => simp
  | cons k ks ih =>
    intro h
    simp only [List.mem_cons, not_or] at h
    have hkc : ¬(k = c) := fun he => h.1 he.symm
    simp only [List.map_cons, List.sum_cons, if_neg hkc]
    rw [ih h.2]
    ring

theorem sum_map_ite_single (c : String) (q : ℚ) :
    ∀ ks : List String, ks.Nodup → c ∈ ks →
      (ks.map (fun k => if k = c then q else 0)).sum = q := by
  intro ks
  induction ks with
  | nil => intro _ h; simp at h
  | cons k ks ih =>
    intro hnd hmem
    rw [List.nodup_cons] at hnd
    rcases List.mem_cons.mp hmem with h | h
    · subst h
      simp only [List.map_cons, List.sum_cons]
      simp only [if_true]
      rw [sum_map_ite_zero c q ks hnd.1]
      ring
    · have hk : ¬(k = c) := fun he => hnd.1 (he ▸ h)
      simp only [List.map_cons, List.sum_cons, if_neg hk]
      rw [ih hnd.2 h]
      ring

theorem sum_map_add_distrib (u v : String → ℚ) :
    ∀ ks : List String,
      (ks.map (fun k => u k + v k)).sum = (ks.map u).sum + (ks.map v).sum := by
  intro ks
  induction ks with
  | nil => simp
  | cons k ks ih =>
    simp only [List.map_cons, List.sum_cons, ih]
    ring

/-- Summing, over the distinct values of `f`, the `g`-sums of the
fibers of `f`, recovers the total `g`-sum: the value sum of a
`defaultdict` accumulated by key equals the overall sum. -/
theorem dedup_fiber_sum (f : Txn → String) (g : Txn → ℚ) :
    ∀ l : List Txn,
      (((l.map f).dedup).map
        (fun k => ((l.filter (fun x => f x == k)).map g).sum)).sum = (l.map g).sum := by
  intro l
  induction l with
  | nil => simp
  | cons a l ih =>
    have hsummand : ∀ k, (((a :: l).filter (fun x => f x == k)).map g).sum
        = (if k = f a then g a else 0) + ((l.filter (fun x => f x == k)).map g).sum := by
      intro k
      rw [List.filter_cons]
      by_cases hk : f a = k
      · simp [hk]
      · have hk' : ¬(k = f a) := fun h => hk h.symm
        simp [hk, hk']
    by_cases hmem : f a ∈ l.map f
    · rw [List.map_cons, List.dedup_cons_of_mem hmem]
      rw [show ((l.map f).dedup).map
            (fun k => (((a :: l).filter (fun x => f x == k)).map g).sum)
          = ((l.map f).dedup).map
            (fun k => (if k = f a then g a else 0) +
              ((l.filter (fun x => f x == k)).map g).sum)
        from List.map_congr_left (fun k _ => hsummand k)]
      rw [sum_map_add_distrib]
      rw [sum_map_ite_single (f a) (g a) _ (List.nodup_dedup _)
        (List.mem_dedup.mpr hmem)]
      rw [ih]
      simp
    · rw [List.map_cons, List.dedup_cons_of_not_mem hmem]
      rw [List.map_cons, List.sum_cons]
      have h1 : (((a :: l).filter (fun x => f x == f a)).map g).sum = g a := by
        rw [hsummand (f a), if_pos rfl]
        have hnil : l.filter (fun x => f x == f a) = [] := by
          rw [List.filter_eq_nil_iff]
          intro x hx
          simp only [beq_iff_eq]
          intro he
          exact hmem (he ▸ List.mem_map_of_mem f hx)
        rw [hnil]
        simp
      rw [h1]
      rw [show ((l.map f).dedup).map
            (fun k => (((a :: l).filter (fun x => f x == k)).map g).sum)
          = ((l.map f).dedup).map
            (fun k => ((l.filter (fun x => f x == k)).map g).sum) from
        List.map_congr_left (fun k hk => by
          rw [hsummand k, if_neg, zero_add]
          intro he
          exact hmem (he ▸ List.mem_dedup.mp hk))]
      rw [ih]
      simp

/-- Fiber sums of a filtered list: summing a guarded, keyed
accumulation over its key set recovers the sum over the guarded
transactions. -/
theorem fiber_total (p : Txn → Bool) (f : Txn → String) (l : List Txn) :
    ((((l.filter p).map f).dedup).map
      (fun k => ((l.filter (fun x => p x && (f x == k))).map Txn.amount).sum)).sum
      = ((l.filter p).map Txn.amount).sum := by
  have h : ∀ k, l.filter (fun x => p x && (f x == k))
      = (l.filter p).filter (fun x => f x == k) := by
    intro k
    rw [List.filter_filter]
    exact List.filter_congr (fun x _ => by rw [Bool.and_comm])
  rw [show (((l.filter p).map f).dedup).map
        (fun k => ((l.filter (fun x => p x && (f x == k))).map Txn.amount).sum)
      = (((l.filter p).map f).dedup).map
        (fun k => (((l.filter p).filter (fun x => f x == k)).map Txn.amount).sum) from
    List.map_congr_left (fun k _ => by rw [h k])]
  exact dedup_fiber_sum f Txn.amount (l.filter p)

/-! ## Claim theorems: projection calculator -/

/-- C6: the projection calculator returns 0 when `years <= 0` or
`pmt <= 0`; at annual rate exactly 0 it returns exactly
`pmt * years * 12` (in particular 24000 at `pmt=200, years=10`);
otherwise it returns the ordinary-annuity future value at the
equivalent monthly rate, with `pmt * n` in the small-rate tolerance
branch. -/
theorem C6_projection_formula :
    (∀ (pmt : ℝ) (years : ℤ) (r : ℝ), years ≤ 0 ∨ pmt ≤ 0 →
      future_value_monthly_contrib pmt years r = 0) ∧
    (∀ (pmt : ℝ) (years : ℤ), 0 < years → 0 < pmt →
      future_value_monthly_contrib pmt years 0 = pmt * ((years : ℝ) * 12)) ∧
    future_value_monthly_contrib 200 10 0 = 24000 ∧
    (∀ (pmt : ℝ) (years : ℤ) (r : ℝ), 0 < years → 0 < pmt →
      |monthly_rate r| < 1e-12 →
      future_value_monthly_contrib pmt years r = pmt * ((years : ℝ) * 12)) ∧
    (∀ (pmt : ℝ) (years : ℤ) (r : ℝ), 0 < years → 0 < pmt →
      ¬|monthly_rate r| < 1e-12 →
      future_value_monthly_contrib pmt years r =
        pmt * (((1 + monthly_rate r) ^ (years * 12).toNat - 1) / monthly_rate r)) := by
  have hzero : ∀ (pmt : ℝ) (years : ℤ), 0 < years → 0 < pmt →
      future_value_monthly_contrib pmt years 0 = pmt * ((years : ℝ) * 12) := by
    intro pmt years hy hp
    rw [fv_of_small_rate pmt years 0 hy hp (by rw [monthly_rate_zero]; norm_num)]
    push_cast
    ring
  refine ⟨fv_of_nonpos, hzero, ?_, ?_, fv_of_large_rate⟩
  · rw [hzero 200 10 (by norm_num) (by norm_num)]
    norm_num
  · intro pmt years r hy hp h
    rw [fv_of_small_rate pmt years r hy hp h]
    push_cast
    ring

/-- C6 witness: the contract evaluated at concrete inputs. -/
theorem C6_projection_formula_witness :
    future_value_monthly_contrib 200 0 (7 / 100) = 0 :=
  C6_projection_formula.1 200 0 (7 / 100) (Or.inl (by norm_num))

/-- C7: for positive `pmt` and annual rate `r ≥ -1`, the projection is
0 at `years = 0` and non-decreasing in the year horizon. -/
theorem C7_projection_monotone :
    ∀ (pmt r : ℝ), 0 < pmt → -1 ≤ r →
      future_value_monthly_contrib pmt 0 r = 0 ∧
      ∀ (y₁ y₂ : ℤ), y₁ ≤ y₂ →
        future_value_monthly_contrib pmt y₁ r ≤
          future_value_monthly_contrib pmt y₂ r := by
  intro pmt r hp hr
  have hx : (0 : ℝ) ≤ (1 + r) ^ ((1 : ℝ) / 12) :=
    Real.rpow_nonneg (by linarith) _
  have hxm : 1 + monthly_rate r = (1 + r) ^ ((1 : ℝ) / 12) := by
    unfold monthly_rate; ring
  refine ⟨fv_of_nonpos pmt 0 r (Or.inl le_rfl), ?_⟩
  intro y₁ y₂ hle
  by_cases h2 : y₂ ≤ 0
  · rw [fv_of_nonpos pmt y₁ r (Or.inl (by omega)),
      fv_of_nonpos pmt y₂ r (Or.inl h2)]
  · push_neg at h2
    by_cases htol : |monthly_rate r| < 1e-12
    · rw [fv_of_small_rate pmt y₂ r h2 hp htol]
      by_cases h1 : y₁ ≤ 0
      · rw [fv_of_nonpos pmt y₁ r (Or.inl h1)]
        have h12 : (12 : ℤ) ≤ y₂ * 12 := by omega
        have : (12 : ℝ) ≤ ((y₂ * 12 : ℤ) : ℝ) := by exact_mod_cast h12
        nlinarith
      · push_neg at h1
        rw [fv_of_small_rate pmt y₁ r h1 hp htol]
        have h12 : ((y₁ * 12 : ℤ) : ℝ) ≤ ((y₂ * 12 : ℤ) : ℝ) := by
          exact_mod_cast (by omega : y₁ * 12 ≤ y₂ * 12)
        nlinarith
    · have hx1 : (1 + r) ^ ((1 : ℝ) / 12) ≠ 1 := by
        intro he
        apply htol
        have : monthly_rate r = 0 := by unfold monthly_rate; rw [he]; ring
        rw [this]
        norm_num
      have key : ∀ y : ℤ, 0 < y →
          future_value_monthly_contrib pmt y r =
            pmt * ∑ i in Finset.range (y * 12).toNat,
              ((1 + r) ^ ((1 : ℝ) / 12)) ^ i := by
        intro y hy
        rw [fv_of_large_rate pmt y r hy hp htol]
        rw [geom_sum_eq hx1]
        rw [hxm]
        have : monthly_rate r = (1 + r) ^ ((1 : ℝ) / 12) - 1 := rfl
        rw [this]
      have hterm : ∀ i : ℕ, (0 : ℝ) ≤ ((1 + r) ^ ((1 : ℝ) / 12)) ^ i :=
        fun i => pow_nonneg hx i
      by_cases h1 : y₁ ≤ 0
      · rw [fv_of_nonpos pmt y₁ r (Or.inl h1), key y₂ h2]
        exact mul_nonneg hp.le (Finset.sum_nonneg fun i _ => hterm i)
      · push_neg at h1
        rw [key y₁ h1, key y₂ h2]
        apply mul_le_mul_of_nonneg_left _ hp.le
        apply Finset.sum_le_sum_of_subset_of_nonneg
        · exact Finset.range_subset.mpr (by omega)
        · exact fun i _ _ => hterm i

/-- C7 witness: the monotonicity contract at concrete inputs. -/
theorem C7_projection_monotone_witness :
    future_value_monthly_contrib 200 0 (7 / 100) = 0 ∧
    future_value_monthly_contrib 200 3 (7 / 100) ≤
      future_value_monthly_contrib 200 5 (7 / 100) :=
  ⟨(C7_projection_monotone 200 (7 / 100) (by norm_num) (by norm_num)).1,
    (C7_projection_monotone 200 (7 / 100) (by norm_num) (by norm_num)).2 3 5
      (by norm_num)⟩

/-! ## Claim theorems: amount normalizer and missing fields -/

/-- C1 counterexample: the amount normalizer accepts `"-5"` and
returns the negative value `-5`, so it is not true that it never
returns a negative number. -/
theorem C1_counterexample :
    parse_amount (some "-5") = .ok (-5 : ℚ) ∧ (-5 : ℚ) < 0 := by
  constructor
  · rw [parse_amount_eq_ok _ ⟨true, 5, 0, 0, 0⟩ (by decide) (by decide)]
    congr 1
    norm_num [FloatLit.toRat]
  · norm_num

/-- C1 (amended): the amount normalizer never defaults — an accepted
value is exactly the `float()` result of the cleaned, non-empty text,
and the `ℚ`-valued pipeline stores exactly the rational denoted by a
finite accepted literal; but `float()` also accepts negative literals
(`"-5"` → -5), underscore-grouped literals (`"1_5"` → 15), and the
infinity/NaN spellings (`"inf"`, `"nan"`), so an accepted amount may
be negative or non-finite: only empty text and text `float()` rejects
raise a validation error. -/
theorem C1_amount_is_float_result :
    (∀ (s : String) (v : PyFloatVal), parse_amount_full (some s) = .ok v →
      ¬pyStrip s.data = [] ∧ pyFloat (cleanAmount (pyStrip s.data)) = some v) ∧
    (∀ (s : String) (q : ℚ), parse_amount (some s) = .ok q →
      ∃ f : FloatLit, parse_amount_full (some s) = .ok (.finite f) ∧ q = f.toRat) ∧
    parse_amount_full (some "inf") = .ok (.infinite false) ∧
    parse_amount_full (some "-inf") = .ok (.infinite true) ∧
    parse_amount_full (some "nan") = .ok .nan ∧
    parse_amount_full (some "1_5") = .ok (.finite ⟨false, 15, 0, 0, 0⟩) ∧
    parse_amount (some "1_5") = .ok (15 : ℚ) := by
  refine ⟨?_, ?_, by decide, by decide, by decide, by decide, ?_⟩
  · intro s v h
    unfold parse_amount_full optData at h
    simp only [Option.getD] at h
    by_cases he : pyStrip s.data = []
    · rw [if_pos he] at h
      exact absurd h (by simp)
    · rw [if_neg he] at h
      refine ⟨he, ?_⟩
      cases hf : pyFloat (cleanAmount (pyStrip s.data)) with
      | none => rw [hf] at h; simp at h
      | some v' =>
        rw [hf] at h
        simp only [Except.ok.injEq] at h
        rw [h]
  · intro s q h
    unfold parse_amount optData at h
    simp only [Option.getD] at h
    by_cases he : pyStrip s.data = []
    · rw [if_pos he] at h
      exact absurd h (by simp)
    · rw [if_neg he] at h
      unfold parse_amount_full optData
      simp only [Option.getD]
      rw [if_neg he]
      unfold pyFloatFinite at h
      cases hf : pyFloat (cleanAmount (pyStrip s.data)) with
      | none => rw [hf] at h; simp at h
      | some v =>
        rw [hf] at h
        cases v with
        | finite f =>
          simp only [Except.ok.injEq] at h
          exact ⟨f, rfl, h.symm⟩
        | infinite b => simp at h
        | nan => simp at h
  · rw [parse_amount_eq_ok _ ⟨false, 15, 0, 0, 0⟩ (by decide) (by decide)]
    congr 1
    norm_num [FloatLit.toRat]

/-- C1 witness: the amended statement applied to the accepted
input `"5"`. -/
theorem C1_amount_is_float_result_witness :
    ¬pyStrip ("5".data) = [] ∧
      pyFloat (cleanAmount (pyStrip "5".data)) =
        some (.finite ⟨false, 5, 0, 0, 0⟩) :=
  C1_amount_is_float_result.1 "5" (.finite ⟨false, 5, 0, 0, 0⟩) (by decide)

/-- C2 counterexample: with both `kind` and `amount` missing from the
header, `budget.load_transactions` raises an error naming only
`kind`, the first missing column, although `amount` is missing too. -/
theorem C2_counterexample :
    load_transactions ⟨some ["date", "category"], []⟩ = .error (.missingColumn "kind") ∧
    ¬("amount" ∈ (["date", "category"] : List String)) := by
  exact ⟨by decide, by decide⟩

/-- C2 (amended): the upload parser fails with a `MissingColumns`
error naming every missing required column (in sorted order), but the
CSV-file parser `load_transactions` names only the first missing
column in the order `date, kind, amount, category`. -/
theorem C2_missing_columns :
    (∀ (fieldnames : List String) (rows : List Row),
      ¬required_columns_sorted.filter (fun c => !fieldnames.contains c) = [] →
      parse_transactions_from_upload ⟨some fieldnames, rows⟩ =
        .error (.missingColumns
          (required_columns_sorted.filter (fun c => !fieldnames.contains c)))) ∧
    (∀ (fieldnames : List String) (c : String),
      c ∈ required_columns_sorted → ¬fieldnames.contains c = true →
      c ∈ required_columns_sorted.filter (fun c => !fieldnames.contains c)) ∧
    (∀ (fieldnames : List String) (rows : List Row) (col : String),
      required_columns.find? (fun c => !fieldnames.contains c) = some col →
      load_transactions ⟨some fieldnames, rows⟩ = .error (.missingColumn col)) := by
  refine ⟨?_, ?_, ?_⟩
  · intro fieldnames rows h
    unfold parse_transactions_from_upload
    simp only
    rw [if_neg h]
  · intro fieldnames c hc hnc
    rw [List.mem_filter]
    refine ⟨hc, by simp only [Bool.not_eq_true', ← Bool.not_eq_true]; exact hnc⟩
  · intro fieldnames rows col h
    unfold load_transactions
    simp only
    rw [h]

/-- C2 witness: the amended statement at a header missing `kind` and
`amount`. -/
theorem C2_missing_columns_witness :
    parse_transactions_from_upload ⟨some ["date", "category"], []⟩ =
      .error (.missingColumns
        (required_columns_sorted.filter
          (fun c => !(["date", "category"] : List String).contains c))) :=
  C2_missing_columns.1 ["date", "category"] [] (by decide)

/-- C9 counterexample: the amount normalizer accepts `"inf"` — whose
cleaned text is not a decimal literal — returning an infinite value
instead of failing with a malformed-number error. -/
theorem C9_counterexample :
    parse_amount_full (some "inf") = .ok (.infinite false) ∧
    pyFloatLit false (cleanAmount (pyStrip ("inf".data))) = none := by
  exact ⟨by decide, by decide⟩

/-- C9 (amended): the amount normalizer strips whitespace, rejects
the empty string with an empty-value error, removes apostrophe and
plain-space grouping, and takes comma as decimal separator (the three
spellings of 12500.75 agree); any cleaned text that `float()` rejects
— including currency symbols such as `"CHF 12.50"` — fails with a
malformed-number error, but the `float()`-accepted texts that are not
plain decimal literals (the `inf`/`nan` spellings and
underscore-grouped digits) are accepted, not rejected. -/
theorem C9_amount_formats :
    parse_amount (some "12'500,75") = .ok (12500.75 : ℚ) ∧
    parse_amount (some "12500.75") = .ok (12500.75 : ℚ) ∧
    parse_amount (some "12 500,75") = .ok (12500.75 : ℚ) ∧
    parse_amount (some " 12,50 ") = .ok (12.50 : ℚ) ∧
    parse_amount_full (some "") = .error (.emptyValue "amount") ∧
    (∀ s : String, pyStrip s.data = [] →
      parse_amount_full (some s) = .error (.emptyValue "amount")) ∧
    (∀ s : String, ¬pyStrip s.data = [] →
      pyFloat (cleanAmount (pyStrip s.data)) = none →
      parse_amount_full (some s) =
        .error (.malformedNumber (String.mk (cleanAmount (pyStrip s.data)))) ∧
      parse_amount (some s) =
        .error (.malformedNumber (String.mk (cleanAmount (pyStrip s.data))))) ∧
    parse_amount_full (some "CHF 12.50") = .error (.malformedNumber "CHF12.50") ∧
    parse_amount_full (some "inf") = .ok (.infinite false) ∧
    parse_amount_full (some "nan") = .ok .nan ∧
    parse_amount_full (some "1_0") = .ok (.finite ⟨false, 10, 0, 0, 0⟩) := by
  have hok : ∀ (s : String) (f : FloatLit) (q : ℚ),
      ¬pyStrip s.data = [] → pyFloatFinite (cleanAmount (pyStrip s.data)) = some f →
      f.toRat = q → parse_amount (some s) = .ok q := by
    intro s f q h1 h2 h3
    rw [parse_amount_eq_ok s f h1 h2, h3]
  refine ⟨?_, ?_, ?_, ?_, by decide, ?_, ?_, by decide, by decide, by decide,
    by decide⟩
  · exact hok _ ⟨false, 12500, 75, 2, 0⟩ _ (by decide) (by decide)
      (by norm_num [FloatLit.toRat])
  · exact hok _ ⟨false, 12500, 75, 2, 0⟩ _ (by decide) (by decide)
      (by norm_num [FloatLit.toRat])
  · exact hok _ ⟨false, 12500, 75, 2, 0⟩ _ (by decide) (by decide)
      (by norm_num [FloatLit.toRat])
  · exact hok _ ⟨false, 12, 50, 2, 0⟩ _ (by decide) (by decide)
      (by norm_num [FloatLit.toRat])
  · intro s h
    unfold parse_amount_full optData
    simp only [Option.getD]
    rw [if_pos h]
  · intro s h1 h2
    have hfin : pyFloatFinite (cleanAmount (pyStrip s.data)) = none := by
      unfold pyFloatFinite
      rw [h2]
    constructor
    · unfold parse_amount_full optData
      simp only [Option.getD]
      rw [if_neg h1, h2]
    · exact parse_amount_eq_err s h1 hfin

/-- C9 witness: the generic rejection clauses applied to concrete
inputs. -/
theorem C9_amount_formats_witness :
    parse_amount_full (some "   ") = .error (.emptyValue "amount") ∧
    parse_amount_full (some "abc") = .error (.malformedNumber "abc") ∧
    parse_amount (some "abc") = .error (.malformedNumber "abc") := by
  refine ⟨(C9_amount_formats.2.2.2.2.2.1) "   " (by decide), ?_, ?_⟩
  · have h := ((C9_amount_formats.2.2.2.2.2.2.1) "abc" (by decide) (by decide)).1
    exact h.trans (by decide)
  · have h := ((C9_amount_formats.2.2.2.2.2.2.1) "abc" (by decide) (by decide)).2
    exact h.trans (by decide)

/-- The members of the two spellings of the required-column set
agree. -/
theorem mem_required_columns_iff (c : String) :
    c ∈ required_columns_sorted ↔ c ∈ required_columns := by
  simp only [required_columns, required_columns_sorted, List.mem_cons,
    List.not_mem_nil, or_false]
  tauto

/-- The fail-fast row loop on a row list whose first failing row is
`r`: the loop aborts there, wrapping the row error with the file line
of `r`. -/
theorem loadRows_first_error (rowFn : Row → Except PError Txn) :
    ∀ (pre : List Row) (r : Row) (post : List Row) (n : Nat) (e : PError),
      (∀ p ∈ pre, exceptIsOk (rowFn p) = true) →
      rowFn r = .error e →
      loadRows rowFn (pre ++ r :: post) n = .error (.rowFailure (n + pre.length) e) := by
  intro pre
  induction pre with
  | nil =>
    intro r post n e _ he
    simp [loadRows, he]
  | cons p pre ih =>
    intro r post n e hok he
    have hp := hok p (List.mem_cons_self p pre)
    cases hcase : rowFn p with
    | error e' =>
      rw [hcase] at hp
      simp [exceptIsOk] at hp
    | ok tx =>
      simp only [List.cons_append, loadRows, hcase, List.append_eq]
      rw [ih r post (n + 1) e (fun q hq => hok q (List.mem_cons_of_mem p hq)) he]
      simp only [List.length_cons]
      congr 2
      omega

/-- C3: when a data row fails a normalizer, both parsers abort the
whole parse with a single error carrying the 1-based line number of
the first failing row (header = line 1, first data row = line 2) and
the row's cause; no (even partial) transaction list is produced. -/
theorem C3_fail_fast_line_numbered :
    ∀ (fieldnames : List String) (pre : List Row) (r : Row) (post : List Row)
      (e e' : PError),
      (∀ c ∈ required_columns, c ∈ fieldnames) →
      (∀ p ∈ pre, exceptIsOk (row_to_txn_budget p) = true) →
      row_to_txn_budget r = .error e →
      (∀ p ∈ pre, exceptIsOk (row_to_txn_dash p) = true) →
      row_to_txn_dash r = .error e' →
      load_transactions ⟨some fieldnames, pre ++ r :: post⟩ =
        .error (.rowFailure (2 + pre.length) e) ∧
      parse_transactions_from_upload ⟨some fieldnames, pre ++ r :: post⟩ =
        .error (.rowFailure (2 + pre.length) e') := by
  intro fieldnames pre r post e e' hcols hpreb heb hpred hed
  constructor
  · unfold load_transactions
    simp only
    have hfind : required_columns.find? (fun c => !fieldnames.contains c) = none := by
      rw [List.find?_eq_none]
      intro c hc
      simp [hcols c hc]
    rw [hfind]
    exact loadRows_first_error row_to_txn_budget pre r post 2 e hpreb heb
  · unfold parse_transactions_from_upload
    simp only
    have hmiss : required_columns_sorted.filter (fun c => !fieldnames.contains c) = [] := by
      rw [List.filter_eq_nil_iff]
      intro c hc
      simp [hcols c ((mem_required_columns_iff c).mp hc)]
    rw [if_pos hmiss]
    rw [loadRows_first_error row_to_txn_dash pre r post 2 e' hpred hed]

/-- C3 witness: a good row followed by a row with an unparsable
amount aborts both parses at line 3. -/
theorem C3_fail_fast_line_numbered_witness :
    load_transactions ⟨some ["date", "kind", "amount", "category"],
        [[("date", "2026-01-11"), ("kind", "income"), ("amount", "500"), ("category", "Lohn")],
         [("date", "2026-01-12"), ("kind", "expense"), ("amount", "x"), ("category", "Miete")]]⟩ =
      .error (.rowFailure 3 (.malformedNumber "x")) ∧
    parse_transactions_from_upload ⟨some ["date", "kind", "amount", "category"],
        [[("date", "2026-01-11"), ("kind", "income"), ("amount", "500"), ("category", "Lohn")],
         [("date", "2026-01-12"), ("kind", "expense"), ("amount", "x"), ("category", "Miete")]]⟩ =
      .error (.rowFailure 3 (.malformedNumber "x")) := by
  have h := C3_fail_fast_line_numbered ["date", "kind", "amount", "category"]
    [[("date", "2026-01-11"), ("kind", "income"), ("amount", "500"), ("category", "Lohn")]]
    [("date", "2026-01-12"), ("kind", "expense"), ("amount", "x"), ("category", "Miete")]
    [] (.malformedNumber "x") (.malformedNumber "x")
    (by decide) (by decide) (by decide) (by decide) (by decide)
  exact h

/-- C10: every field normalizer treats a missing (`None`) field
exactly like the empty string: `parse_amount` and `parse_date` give
the same empty-value errors, `normalize_kind` the same invalid-kind
error, and `normalize_group` returns `"other"`; none of them can
crash on a missing cell. -/
theorem C10_none_like_empty :
    parse_amount none = parse_amount (some "") ∧
    parse_amount none = .error (.emptyValue "amount") ∧
    parse_date none = parse_date (some "") ∧
    parse_date none = .error (.emptyValue "date") ∧
    normalize_kind none = normalize_kind (some "") ∧
    normalize_kind none = .error .invalidKind ∧
    normalize_group none = normalize_group (some "") ∧
    normalize_group none = "other" := by
  refine ⟨by decide, by decide, by decide, by decide, by decide, by decide,
    by decide, by decide⟩

/-! ## Claim theorems: aggregation -/

/-- C4: aggregation is order-independent — permuting the transaction
list leaves the totals triple, the reported month list, and every
per-month, per-category and per-group sum unchanged. -/
theorem C4_aggregation_order_independent :
    ∀ l₁ l₂ : List Txn, l₁.Perm l₂ →
      compute_totals l₁ = compute_totals l₂ ∧
      (compute_aggregates l₁).months = (compute_aggregates l₂).months ∧
      (∀ m, (compute_aggregates l₁).monthly_income m =
        (compute_aggregates l₂).monthly_income m) ∧
      (∀ m, (compute_aggregates l₁).monthly_expense m =
        (compute_aggregates l₂).monthly_expense m) ∧
      (∀ m c, (compute_aggregates l₁).monthly_cat m c =
        (compute_aggregates l₂).monthly_cat m c) ∧
      (∀ m g, (compute_aggregates l₁).monthly_group m g =
        (compute_aggregates l₂).monthly_group m g) ∧
      (∀ c, (compute_aggregates l₁).totals_by_category c =
        (compute_aggregates l₂).totals_by_category c) ∧
      (∀ g, (compute_aggregates l₁).totals_by_group g =
        (compute_aggregates l₂).totals_by_group g) := by
  intro l₁ l₂ h
  have hsum : ∀ p : Txn → Bool,
      ((l₁.filter p).map Txn.amount).sum = ((l₂.filter p).map Txn.amount).sum :=
    fun p => ((h.filter p).map Txn.amount).sum_eq
  refine ⟨?_, ?_, ?_, ?_, ?_, ?_, ?_, ?_⟩
  · rw [compute_totals_spec, compute_totals_spec]
    simp only [hsum]
  · rw [compute_aggregates_months, compute_aggregates_months]
    have hperm := (h.map (fun tx => month_key tx.date_obj)).dedup
    exact List.eq_of_perm_of_sorted
      (((List.perm_insertionSort _ _).trans hperm).trans
        (List.perm_insertionSort _ _).symm)
      (List.sorted_insertionSort _ _) (List.sorted_insertionSort _ _)
  · intro m
    rw [compute_aggregates_monthly_income, compute_aggregates_monthly_income, hsum]
  · intro m
    rw [compute_aggregates_monthly_expense, compute_aggregates_monthly_expense, hsum]
  · intro m c
    rw [compute_aggregates_monthly_cat, compute_aggregates_monthly_cat, hsum]
  · intro m g
    rw [compute_aggregates_monthly_group, compute_aggregates_monthly_group, hsum]
  · intro c
    rw [compute_aggregates_totals_by_category, compute_aggregates_totals_by_category,
      hsum]
  · intro g
    rw [compute_aggregates_totals_by_group, compute_aggregates_totals_by_group, hsum]

/-- C4 witness: order independence for a concrete two-element swap. -/
theorem C4_aggregation_order_independent_witness :
    compute_totals [exTx1, exTx2] = compute_totals [exTx2, exTx1] ∧
    (compute_aggregates [exTx1, exTx2]).months =
      (compute_aggregates [exTx2, exTx1]).months :=
  ⟨(C4_aggregation_order_independent [exTx1, exTx2] [exTx2, exTx1]
      (List.Perm.swap exTx2 exTx1 [])).1,
   (C4_aggregation_order_independent [exTx1, exTx2] [exTx2, exTx1]
      (List.Perm.swap exTx2 exTx1 [])).2.1⟩

/-- Value sum of the budget category dictionary. -/
theorem expense_cat_values_sum (l : List Txn) :
    ((expense_categories l).map (sum_expenses_by_category l)).sum =
      ((l.filter (fun tx => tx.kind == "expense")).map Txn.amount).sum := by
  unfold expense_categories
  rw [show ((l.filter (fun tx => tx.kind == "expense")).map
        (fun tx => tx.category)).dedup.map (sum_expenses_by_category l)
      = ((l.filter (fun tx => tx.kind == "expense")).map
        (fun tx => tx.category)).dedup.map
          (fun k => ((l.filter (fun tx =>
            (tx.kind == "expense") && (tx.category == k))).map Txn.amount).sum) from
    List.map_congr_left (fun k _ => sum_expenses_by_category_spec l k)]
  exact fiber_total (fun tx => tx.kind == "expense") (fun tx => tx.category) l

/-- Value sum of the budget group dictionary. -/
theorem expense_grp_values_sum (l : List Txn) :
    ((expense_groups l).map (sum_expenses_by_group l)).sum =
      ((l.filter (fun tx => tx.kind == "expense")).map Txn.amount).sum := by
  unfold expense_groups
  rw [show ((l.filter (fun tx => tx.kind == "expense")).map
        (fun tx => tx.group)).dedup.map (sum_expenses_by_group l)
      = ((l.filter (fun tx => tx.kind == "expense")).map
        (fun tx => tx.group)).dedup.map
          (fun k => ((l.filter (fun tx =>
            (tx.kind == "expense") && (tx.group == k))).map Txn.amount).sum) from
    List.map_congr_left (fun k _ => sum_expenses_by_group_spec l k)]
  exact fiber_total (fun tx => tx.kind == "expense") (fun tx => tx.group) l

/-- The dashboard total expense is the sum over all non-income
transactions. -/
theorem total_expense_dash_spec (l : List Txn) :
    total_expense_dash l =
      ((l.filter (fun tx => !(tx.kind == "income"))).map Txn.amount).sum := by
  unfold total_expense_dash expense_months
  rw [show ((l.filter (fun tx => !(tx.kind == "income"))).map
        (fun tx => month_key tx.date_obj)).dedup.map
          ((compute_aggregates l).monthly_expense)
      = ((l.filter (fun tx => !(tx.kind == "income"))).map
        (fun tx => month_key tx.date_obj)).dedup.map
          (fun m => ((l.filter (fun tx =>
            !(tx.kind == "income") && (month_key tx.date_obj == m))).map
              Txn.amount).sum) from
    List.map_congr_left (fun m _ => compute_aggregates_monthly_expense l m)]
  exact fiber_total (fun tx => !(tx.kind == "income"))
    (fun tx => month_key tx.date_obj) l

/-- Value sum of the dashboard category dictionary. -/
theorem breakdown_cat_values_sum (l : List Txn) :
    ((breakdown_categories l).map ((compute_aggregates l).totals_by_category)).sum =
      ((l.filter (fun tx => !(tx.kind == "income"))).map Txn.amount).sum := by
  unfold breakdown_categories
  rw [show ((l.filter (fun tx => !(tx.kind == "income"))).map
        (fun tx => tx.category)).dedup.map ((compute_aggregates l).totals_by_category)
      = ((l.filter (fun tx => !(tx.kind == "income"))).map
        (fun tx => tx.category)).dedup.map
          (fun k => ((l.filter (fun tx =>
            !(tx.kind == "income") && (tx.category == k))).map Txn.amount).sum) from
    List.map_congr_left (fun k _ => compute_aggregates_totals_by_category l k)]
  exact fiber_total (fun tx => !(tx.kind == "income")) (fun tx => tx.category) l

/-- Value sum of the dashboard group dictionary. -/
theorem breakdown_grp_values_sum (l : List Txn) :
    ((breakdown_groups l).map ((compute_aggregates l).totals_by_group)).sum =
      ((l.filter (fun tx => !(tx.kind == "income"))).map Txn.amount).sum := by
  unfold breakdown_groups
  rw [show ((l.filter (fun tx => !(tx.kind == "income"))).map
        (fun tx => tx.group)).dedup.map ((compute_aggregates l).totals_by_group)
      = ((l.filter (fun tx => !(tx.kind == "income"))).map
        (fun tx => tx.group)).dedup.map
          (fun k => ((l.filter (fun tx =>
            !(tx.kind == "income") && (tx.group == k))).map Txn.amount).sum) from
    List.map_congr_left (fun k _ => compute_aggregates_totals_by_group l k)]
  exact fiber_total (fun tx => !(tx.kind == "income")) (fun tx => tx.group) l

/-- C5: the aggregated total expense equals the sum of the values of
the by-category breakdown and the sum of the values of the by-group
breakdown, for the dashboard aggregates unconditionally and for the
budget-script functions on any list of well-kinded transactions (only
expense-kind transactions feed either breakdown). -/
theorem C5_expense_crosscheck :
    (∀ l : List Txn,
      total_expense_dash l =
        ((breakdown_categories l).map ((compute_aggregates l).totals_by_category)).sum ∧
      total_expense_dash l =
        ((breakdown_groups l).map ((compute_aggregates l).totals_by_group)).sum) ∧
    (∀ l : List Txn, (∀ tx ∈ l, tx.kind = "income" ∨ tx.kind = "expense") →
      (compute_totals l).2.1 =
        ((expense_categories l).map (sum_expenses_by_category l)).sum ∧
      (compute_totals l).2.1 =
        ((expense_groups l).map (sum_expenses_by_group l)).sum) := by
  constructor
  · intro l
    exact ⟨by rw [total_expense_dash_spec, breakdown_cat_values_sum],
           by rw [total_expense_dash_spec, breakdown_grp_values_sum]⟩
  · intro l hwf
    have h1 : (compute_totals l).2.1 =
        ((l.filter (fun tx => !(tx.kind == "income"))).map Txn.amount).sum := by
      rw [compute_totals_spec]
    have hfe : l.filter (fun tx => !(tx.kind == "income")) =
        l.filter (fun tx => tx.kind == "expense") := by
      apply List.filter_congr
      intro tx htx
      rcases hwf tx htx with h | h <;> simp [h]
    constructor
    · rw [h1, hfe]
      exact (expense_cat_values_sum l).symm
    · rw [h1, hfe]
      exact (expense_grp_values_sum l).symm

/-- C5 witness: the budget cross-check applied to a concrete
well-kinded transaction list. -/
theorem C5_expense_crosscheck_witness :
    (compute_totals [exTx1, exTx2]).2.1 =
      ((expense_categories [exTx1, exTx2]).map
        (sum_expenses_by_category [exTx1, exTx2])).sum ∧
    (compute_totals [exTx1, exTx2]).2.1 =
      ((expense_groups [exTx1, exTx2]).map
        (sum_expenses_by_group [exTx1, exTx2])).sum :=
  C5_expense_crosscheck.2 [exTx1, exTx2] (by decide)

/-! ## Digit rendering round-trips -/

theorem digit_facts :
    ∀ k, k < 10 →
      (digit_char k).isDigit = true ∧ (digit_char k).toNat - 48 = k ∧
      ¬digit_char k = '-' ∧ ¬digit_char k = '.' ∧ ¬digit_char k = '/' := by
  decide

theorem isPySpace_eq_false_of_isDigit (c : Char) (h : c.isDigit = true) :
    isPySpace c = false := by
  unfold isPySpace
  simp only [decide_eq_false_iff_not]
  intro hor
  rcases hor with h1 | h1 | h1 | h1 | h1 | h1 <;> subst h1 <;> exact absurd h (by decide)

theorem not_mem_of_all_digits {cs : List Char} (h : cs.all Char.isDigit = true)
    {c : Char} (hc : c.isDigit = false) : c ∉ cs := by
  intro hmem
  have := List.all_eq_true.mp h c hmem
  rw [hc] at this
  exact Bool.false_ne_true this

theorem pad2_all_digits (n : Nat) : (pad2_chars n).all Char.isDigit = true := by
  have h1 := (digit_facts (n / 10 % 10) (Nat.mod_lt _ (by norm_num))).1
  have h0 := (digit_facts (n % 10) (Nat.mod_lt _ (by norm_num))).1
  simp [pad2_chars, h1, h0]

theorem pad4_all_digits (n : Nat) : (pad4_chars n).all Char.isDigit = true := by
  have h3 := (digit_facts (n / 1000 % 10) (Nat.mod_lt _ (by norm_num))).1
  have h2 := (digit_facts (n / 100 % 10) (Nat.mod_lt _ (by norm_num))).1
  have h1 := (digit_facts (n / 10 % 10) (Nat.mod_lt _ (by norm_num))).1
  have h0 := (digit_facts (n % 10) (Nat.mod_lt _ (by norm_num))).1
  simp [pad4_chars, h3, h2, h1, h0]

theorem digitsToNat_pad2 (n : Nat) (h : n < 100) : digitsToNat (pad2_chars n) = n := by
  have h1 := (digit_facts (n / 10 % 10) (Nat.mod_lt _ (by norm_num))).2.1
  have h0 := (digit_facts (n % 10) (Nat.mod_lt _ (by norm_num))).2.1
  unfold digitsToNat pad2_chars
  simp only [List.foldl_cons, List.foldl_nil]
  rw [h1, h0]
  omega

theorem digitsToNat_pad4 (n : Nat) (h : n < 10000) : digitsToNat (pad4_chars n) = n := by
  have h3 := (digit_facts (n / 1000 % 10) (Nat.mod_lt _ (by norm_num))).2.1
  have h2 := (digit_facts (n / 100 % 10) (Nat.mod_lt _ (by norm_num))).2.1
  have h1 := (digit_facts (n / 10 % 10) (Nat.mod_lt _ (by norm_num))).2.1
  have h0 := (digit_facts (n % 10) (Nat.mod_lt _ (by norm_num))).2.1
  unfold digitsToNat pad4_chars
  simp only [List.foldl_cons, List.foldl_nil]
  rw [h3, h2, h1, h0]
  omega

theorem days_in_month_le (y m : Nat) : days_in_month y m ≤ 31 := by
  unfold days_in_month
  split_ifs <;> norm_num

/-! ## splitOnChar on rendered dates -/

theorem splitOnChar_not_mem (sep : Char) :
    ∀ cs : List Char, sep ∉ cs → splitOnChar sep cs = [cs] := by
  intro cs
  induction cs with
  | nil => intro _; rfl
  | cons c rest ih =>
    intro h
    simp only [List.mem_cons, not_or] at h
    unfold splitOnChar
    rw [if_neg (fun he => h.1 he.symm)]
    rw [ih h.2]

theorem splitOnChar_append (sep : Char) :
    ∀ (xs ys : List Char), sep ∉ xs →
      splitOnChar sep (xs ++ sep :: ys) = xs :: splitOnChar sep ys := by
  intro xs
  induction xs with
  | nil =>
    intro ys _
    simp only [List.nil_append]
    simp [splitOnChar]
  | cons c rest ih =>
    intro ys h
    simp only [List.mem_cons, not_or] at h
    simp only [List.cons_append]
    simp only [splitOnChar]
    rw [if_neg (fun he => h.1 he.symm)]
    rw [ih ys h.2]

/-! ## Round-trips of the four date formats -/

theorem parse_year4_pad4 (y : Nat) (h : y < 10000) :
    parse_year4 (pad4_chars y) = some y := by
  unfold parse_year4
  rw [if_pos ⟨by simp [pad4_chars], pad4_all_digits y⟩]
  rw [digitsToNat_pad4 y h]

theorem parse_year4_pad2 (n : Nat) : parse_year4 (pad2_chars n) = none := by
  unfold parse_year4
  rw [if_neg]
  intro hcond
  have h := hcond.1
  simp [pad2_chars] at h

theorem parse_field2_pad2 (lo hi n : Nat) (h : n < 100) (h1 : lo ≤ n) (h2 : n ≤ hi) :
    parse_field2 lo hi (pad2_chars n) = some n := by
  unfold parse_field2
  rw [digitsToNat_pad2 n h]
  rw [if_pos ⟨Or.inr (by simp [pad2_chars]), pad2_all_digits n, h1, h2⟩]

theorem mk_date_valid (y m d : Nat) (hv : ValidDate y m d) :
    mk_date y m d = some ⟨y, m, d⟩ := by
  unfold mk_date
  unfold ValidDate at hv
  rw [if_pos hv]

theorem sep_not_mem_pad2 {s : Char} (hs : s.isDigit = false) (n : Nat) :
    s ∉ pad2_chars n :=
  not_mem_of_all_digits (pad2_all_digits n) hs

theorem sep_not_mem_pad4 {s : Char} (hs : s.isDigit = false) (n : Nat) :
    s ∉ pad4_chars n :=
  not_mem_of_all_digits (pad4_all_digits n) hs

theorem tryFormatYMD_render (y m d : Nat) (hv : ValidDate y m d) :
    tryFormatYMD '-' (pad4_chars y ++ '-' :: (pad2_chars m ++ '-' :: pad2_chars d)) =
      some ⟨y, m, d⟩ := by
  obtain ⟨hy1, hy2, hm1, hm2, hd1, hd2⟩ := hv
  have hd31 : d ≤ 31 := le_trans hd2 (days_in_month_le y m)
  have hsplit : splitOnChar '-' (pad4_chars y ++ '-' :: (pad2_chars m ++ '-' :: pad2_chars d))
      = [pad4_chars y, pad2_chars m, pad2_chars d] := by
    rw [splitOnChar_append '-' _ _ (sep_not_mem_pad4 (by decide) y),
        splitOnChar_append '-' _ _ (sep_not_mem_pad2 (by decide) m),
        splitOnChar_not_mem '-' _ (sep_not_mem_pad2 (by decide) d)]
  unfold tryFormatYMD
  rw [hsplit]
  simp only [parse_year4_pad4 y (by omega), parse_field2_pad2 1 12 m (by omega) hm1 hm2,
    parse_field2_pad2 1 31 d (by omega) hd1 hd31]
  exact mk_date_valid y m d ⟨hy1, hy2, hm1, hm2, hd1, hd2⟩

theorem tryFormatDMY_render (sep : Char) (hsep : sep.isDigit = false)
    (y m d : Nat) (hv : ValidDate y m d) :
    tryFormatDMY sep (pad2_chars d ++ sep :: (pad2_chars m ++ sep :: pad4_chars y)) =
      some ⟨y, m, d⟩ := by
  obtain ⟨hy1, hy2, hm1, hm2, hd1, hd2⟩ := hv
  have hd31 : d ≤ 31 := le_trans hd2 (days_in_month_le y m)
  have hsplit : splitOnChar sep (pad2_chars d ++ sep :: (pad2_chars m ++ sep :: pad4_chars y))
      = [pad2_chars d, pad2_chars m, pad4_chars y] := by
    rw [splitOnChar_append sep _ _ (sep_not_mem_pad2 hsep d),
        splitOnChar_append sep _ _ (sep_not_mem_pad2 hsep m),
        splitOnChar_not_mem sep _ (sep_not_mem_pad4 hsep y)]
  unfold tryFormatDMY
  rw [hsplit]
  simp only [parse_year4_pad4 y (by omega), parse_field2_pad2 1 12 m (by omega) hm1 hm2,
    parse_field2_pad2 1 31 d (by omega) hd1 hd31]
  exact mk_date_valid y m d ⟨hy1, hy2, hm1, hm2, hd1, hd2⟩

theorem tryFormatYMD_no_sep (sep : Char) (v : List Char) (h : sep ∉ v) :
    tryFormatYMD sep v = none := by
  unfold tryFormatYMD
  rw [splitOnChar_not_mem sep v h]

theorem tryFormatDMY_no_sep (sep : Char) (v : List Char) (h : sep ∉ v) :
    tryFormatDMY sep v = none := by
  unfold tryFormatDMY
  rw [splitOnChar_not_mem sep v h]

theorem tryFormatYMD_dash_render (y m d : Nat) :
    tryFormatYMD '-' (pad2_chars d ++ '-' :: (pad2_chars m ++ '-' :: pad4_chars y)) =
      none := by
  have hsplit : splitOnChar '-' (pad2_chars d ++ '-' :: (pad2_chars m ++ '-' :: pad4_chars y))
      = [pad2_chars d, pad2_chars m, pad4_chars y] := by
    rw [splitOnChar_append '-' _ _ (sep_not_mem_pad2 (by decide) d),
        splitOnChar_append '-' _ _ (sep_not_mem_pad2 (by decide) m),
        splitOnChar_not_mem '-' _ (sep_not_mem_pad4 (by decide) y)]
  unfold tryFormatYMD
  rw [hsplit]
  simp only [parse_year4_pad2 d]

theorem no_space_of_digits {cs : List Char} (h : cs.all Char.isDigit = true) :
    ∀ c ∈ cs, isPySpace c = false :=
  fun c hc => isPySpace_eq_false_of_isDigit c (List.all_eq_true.mp h c hc)

theorem not_mem_render_dmy {x s : Char} (hx : x.isDigit = false) (hxs : ¬x = s)
    (y m d : Nat) :
    x ∉ pad2_chars d ++ s :: (pad2_chars m ++ s :: pad4_chars y) := by
  intro hmem
  rcases List.mem_append.mp hmem with h | h
  · exact sep_not_mem_pad2 hx d h
  · rcases List.mem_cons.mp h with h | h
    · exact hxs h
    · rcases List.mem_append.mp h with h | h
      · exact sep_not_mem_pad2 hx m h
      · rcases List.mem_cons.mp h with h | h
        · exact hxs h
        · exact sep_not_mem_pad4 hx y h

theorem no_space_render_ymd {s : Char} (hs : isPySpace s = false) (y m d : Nat) :
    ∀ c ∈ pad4_chars y ++ s :: (pad2_chars m ++ s :: pad2_chars d),
      isPySpace c = false := by
  intro c hc
  rcases List.mem_append.mp hc with h | h
  · exact no_space_of_digits (pad4_all_digits y) c h
  · rcases List.mem_cons.mp h with h | h
    · rw [h]; exact hs
    · rcases List.mem_append.mp h with h | h
      · exact no_space_of_digits (pad2_all_digits m) c h
      · rcases List.mem_cons.mp h with h | h
        · rw [h]; exact hs
        · exact no_space_of_digits (pad2_all_digits d) c h

theorem no_space_render_dmy {s : Char} (hs : isPySpace s = false) (y m d : Nat) :
    ∀ c ∈ pad2_chars d ++ s :: (pad2_chars m ++ s :: pad4_chars y),
      isPySpace c = false := by
  intro c hc
  rcases List.mem_append.mp hc with h | h
  · exact no_space_of_digits (pad2_all_digits d) c h
  · rcases List.mem_cons.mp h with h | h
    · rw [h]; exact hs
    · rcases List.mem_append.mp h with h | h
      · exact no_space_of_digits (pad2_all_digits m) c h
      · rcases List.mem_cons.mp h with h | h
        · rw [h]; exact hs
        · exact no_space_of_digits (pad4_all_digits y) c h

theorem strptime_render_iso (y m d : Nat) (hv : ValidDate y m d) :
    strptime_formats (pad4_chars y ++ '-' :: (pad2_chars m ++ '-' :: pad2_chars d)) =
      some ⟨y, m, d⟩ := by
  unfold strptime_formats
  rw [tryFormatYMD_render y m d hv]

theorem strptime_render_dot (y m d : Nat) (hv : ValidDate y m d) :
    strptime_formats (pad2_chars d ++ '.' :: (pad2_chars m ++ '.' :: pad4_chars y)) =
      some ⟨y, m, d⟩ := by
  unfold strptime_formats
  rw [tryFormatYMD_no_sep '-' _ (not_mem_render_dmy (by decide) (by decide) y m d),
      tryFormatDMY_render '.' (by decide) y m d hv]

theorem strptime_render_slash (y m d : Nat) (hv : ValidDate y m d) :
    strptime_formats (pad2_chars d ++ '/' :: (pad2_chars m ++ '/' :: pad4_chars y)) =
      some ⟨y, m, d⟩ := by
  unfold strptime_formats
  rw [tryFormatYMD_no_sep '-' _ (not_mem_render_dmy (by decide) (by decide) y m d),
      tryFormatDMY_no_sep '.' _ (not_mem_render_dmy (by decide) (by decide) y m d),
      tryFormatDMY_render '/' (by decide) y m d hv]

theorem strptime_render_dash (y m d : Nat) (hv : ValidDate y m d) :
    strptime_formats (pad2_chars d ++ '-' :: (pad2_chars m ++ '-' :: pad4_chars y)) =
      some ⟨y, m, d⟩ := by
  unfold strptime_formats
  rw [tryFormatYMD_dash_render y m d,
      tryFormatDMY_no_sep '.' _ (not_mem_render_dmy (by decide) (by decide) y m d),
      tryFormatDMY_no_sep '/' _ (not_mem_render_dmy (by decide) (by decide) y m d),
      tryFormatDMY_render '-' (by decide) y m d hv]

theorem dropWhile_eq_self_of (p : Char → Bool) (cs : List Char)
    (h : ∀ c ∈ cs, p c = false) : cs.dropWhile p = cs := by
  cases cs with
  | nil => rfl
  | cons c rest =>
    rw [List.dropWhile_cons, h c (List.mem_cons_self c rest)]
    simp

theorem pyStrip_eq_self {cs : List Char} (h : ∀ c ∈ cs, isPySpace c = false) :
    pyStrip cs = cs := by
  unfold pyStrip
  rw [dropWhile_eq_self_of _ cs h]
  rw [dropWhile_eq_self_of _ cs.reverse (fun c hc => h c (List.mem_reverse.mp hc))]
  exact List.reverse_reverse cs

theorem parse_date_of_strptime (cs : List Char) (d : Date)
    (hns : ∀ c ∈ cs, isPySpace c = false) (hne : ¬cs = [])
    (hs : strptime_formats cs = some d) :
    parse_date (some (String.mk cs)) = .ok d := by
  unfold parse_date optData
  simp only [Option.getD]
  rw [pyStrip_eq_self hns]
  rw [if_neg hne, hs]

theorem strptime_formats_eq_none_iff (v : List Char) :
    strptime_formats v = none ↔
      tryFormatYMD '-' v = none ∧ tryFormatDMY '.' v = none ∧
      tryFormatDMY '/' v = none ∧ tryFormatDMY '-' v = none := by
  unfold strptime_formats
  cases h1 : tryFormatYMD '-' v <;> cases h2 : tryFormatDMY '.' v <;>
    cases h3 : tryFormatDMY '/' v <;> cases h4 : tryFormatDMY '-' v <;>
      simp [h1, h2, h3, h4]

/-- C8: the date normalizer tries exactly the four formats in the
fixed order `%Y-%m-%d`, `%d.%m.%Y`, `%d/%m/%Y`, `%d-%m-%Y`, then
falls back to an ISO-8601 timestamp parse, and fails only when every
attempt fails; consequently all four renderings of a valid calendar
date normalize to the identical date. -/
theorem C8_date_normalizer :
    (∀ y m d : Nat, ValidDate y m d →
      parse_date (some (render_iso y m d)) = .ok ⟨y, m, d⟩ ∧
      parse_date (some (render_dot y m d)) = .ok ⟨y, m, d⟩ ∧
      parse_date (some (render_slash y m d)) = .ok ⟨y, m, d⟩ ∧
      parse_date (some (render_dash y m d)) = .ok ⟨y, m, d⟩) ∧
    (∀ v : List Char, strptime_formats v = none ↔
      tryFormatYMD '-' v = none ∧ tryFormatDMY '.' v = none ∧
      tryFormatDMY '/' v = none ∧ tryFormatDMY '-' v = none) ∧
    (∀ (s : String) (e : PError), parse_date (some s) = .error e →
      strptime_formats (pyStrip s.data) = none ∧
        (pyStrip s.data = [] ∨ fromisoformat_date (pyStrip s.data) = none)) ∧
    (∀ s : String, ¬pyStrip s.data = [] →
      parse_date (some s) =
        match strptime_formats (pyStrip s.data) with
        | some d => .ok d
        | none =>
          match fromisoformat_date (pyStrip s.data) with
          | some d => .ok d
          | none => .error (.unknownDateFormat (String.mk (pyStrip s.data)))) := by
  refine ⟨?_, strptime_formats_eq_none_iff, ?_, ?_⟩
  · intro y m d hv
    refine ⟨?_, ?_, ?_, ?_⟩
    · unfold render_iso
      exact parse_date_of_strptime _ _ (no_space_render_ymd (by decide) y m d)
        (by simp [pad4_chars]) (strptime_render_iso y m d hv)
    · unfold render_dot
      exact parse_date_of_strptime _ _ (no_space_render_dmy (by decide) y m d)
        (by simp [pad2_chars]) (strptime_render_dot y m d hv)
    · unfold render_slash
      exact parse_date_of_strptime _ _ (no_space_render_dmy (by decide) y m d)
        (by simp [pad2_chars]) (strptime_render_slash y m d hv)
    · unfold render_dash
      exact parse_date_of_strptime _ _ (no_space_render_dmy (by decide) y m d)
        (by simp [pad2_chars]) (strptime_render_dash y m d hv)
  · intro s e h
    unfold parse_date optData at h
    simp only [Option.getD] at h
    by_cases he : pyStrip s.data = []
    · refine ⟨by rw [he]; decide, Or.inl he⟩
    · rw [if_neg he] at h
      cases hs : strptime_formats (pyStrip s.data) with
      | some d => rw [hs] at h; simp at h
      | none =>
        rw [hs] at h
        refine ⟨rfl, Or.inr ?_⟩
        cases hi : fromisoformat_date (pyStrip s.data) with
        | some d => rw [hi] at h; simp at h
        | none => rfl
  · intro s hne
    unfold parse_date optData
    simp only [Option.getD]
    rw [if_neg hne]

/-- C8 witness: for the concrete date 2026-01-11, the ISO and the
`DD-MM-YYYY` renderings parse to the same date value. -/
theorem C8_date_normalizer_witness :
    parse_date (some (render_iso 2026 1 11)) = .ok ⟨2026, 1, 11⟩ ∧
    parse_date (some (render_dash 2026 1 11)) = .ok ⟨2026, 1, 11⟩ :=
  ⟨(C8_date_normalizer.1 2026 1 11 (by decide)).1,
   (C8_date_normalizer.1 2026 1 11 (by decide)).2.2.2⟩
